import Mathlib

/-! # aos_servicemanager: service registry and lifecycle orchestrator

A shallow embedding of `database/database.go` (the SQLite-backed service
registry), of the parts of the launcher that the registry claims rest on, of
`visclient/visclient.go` (the client of the vehicle information service) and of
`DoMigrate` of the vendored `migration/migration.go`.

Conventions of the embedding

* A table is the list of its rows, in insertion order.  Every SQL statement of
  the source is rendered as the list operation it denotes (`INSERT` appends
  unless the primary key is taken, `UPDATE ... WHERE` maps over the matching
  rows, `DELETE ... WHERE` filters them out, `SELECT ... WHERE` filters; the
  rows of `SELECT ... WHERE id IN (...)` come ordered by id).
* A Go `error` is `Option String`: `none` is `nil`, `some msg` carries the
  message.  A mutator returns the registry it leaves behind together with its
  error; a query returns `Except String _`.
* Storage I/O failures of the SQL driver (a failing `Prepare`, a closed
  handle) are outside the model: statements fail only for the reasons the
  schema and the source give (a taken primary key, no affected row, a stored
  integer that `Scan` cannot convert).
* `time.Time` is an instant counted in nanoseconds.  A `uint` is a `Nat`, meant
  below 2^64.  The `database/sql` driver binds it as `int64(v)`, so a value of
  2^63 or more is stored as a negative INTEGER, which `Scan` refuses to convert
  back to `uint`: a row holding such a version or TTL can be written and
  cannot be read.
* `json.Marshal` of a `[]string` is injective, so the `users` column is keyed
  by the list of users itself.
-/

namespace Aos

/-! ## database/database.go -/

namespace database

/-- ServiceEntry describes entry structure (one row of the `services` table). -/
structure ServiceEntry where
  ID : String
  Version : Nat
  Path : String
  ServiceName : String
  UserName : String
  Permissions : String
  State : Int
  Status : Int
  StartAt : Int
  TTL : Nat
deriving DecidableEq, Repr, Inhabited

/-- One row of the `users` table: `users TEXT NOT NULL, serviceid TEXT NOT NULL`. -/
structure UsersRow where
  users : List String
  serviceid : String
deriving DecidableEq, Repr, Inhabited

/-- Database structure: the contents of the two tables created by `New`. -/
structure Database where
  services : List ServiceEntry
  users : List UsersRow
deriving DecidableEq, Repr, Inhabited

/-- The registry right after `createServiceTable` and `createUsersTable`. -/
def empty : Database := { services := [], users := [] }

/-- Message of `errors.New("Service does not exist")`. -/
def errNotExist : String := "Service does not exist"

/-- Message SQLite reports when `services.id` (`PRIMARY KEY`) is already taken. -/
def errServiceKey : String := "UNIQUE constraint failed: services.id"

/-- Message SQLite reports when `PRIMARY KEY(users, serviceid)` is already taken. -/
def errUsersKey : String := "UNIQUE constraint failed: users.users, users.serviceid"

/-- Rows selected by `WHERE id = ?` on the `services` table. -/
def hasID (id : String) (r : ServiceEntry) : Bool := r.ID == id

/-- Rows selected by `WHERE users = ? AND serviceid = ?` on the `users` table. -/
def isBinding (users : List String) (id : String) (r : UsersRow) : Bool :=
  r.users == users && r.serviceid == id

/-- Number of rows an `UPDATE services ... WHERE id = ?` affects. -/
def rowsAffected (id : String) (db : Database) : Nat :=
  (db.services.filter (hasID id)).length

/-- AddService adds new service entry:
`INSERT INTO services values(?, ?, ?, ?, ?, ?, ?, ?, ?, ?)`. -/
def AddService (entry : ServiceEntry) (db : Database) : Database × Option String :=
  if db.services.any (hasID entry.ID) then (db, some errServiceKey)
  else ({ db with services := db.services ++ [entry] }, none)

/-- What `UPDATE services SET version = ?, path = ?, service = ?, user = ?, permissions = ?,
state = ?, status = ?, startat = ?, ttl = ? WHERE id = ?` does to one row. -/
def updateRow (entry : ServiceEntry) (r : ServiceEntry) : ServiceEntry :=
  if hasID entry.ID r then
    { r with Version := entry.Version, Path := entry.Path, ServiceName := entry.ServiceName,
             UserName := entry.UserName, Permissions := entry.Permissions,
             State := entry.State, Status := entry.Status, StartAt := entry.StartAt,
             TTL := entry.TTL }
  else r

/-- What `UPDATE services SET status = ? WHERE id = ?` does to one row. -/
def statusRow (id : String) (status : Int) (r : ServiceEntry) : ServiceEntry :=
  if hasID id r then { r with Status := status } else r

/-- What `UPDATE services SET state = ? WHERE id = ?` does to one row. -/
def stateRow (id : String) (state : Int) (r : ServiceEntry) : ServiceEntry :=
  if hasID id r then { r with State := state } else r

/-- What `UPDATE services SET startat = ? WHERE id = ?` does to one row. -/
def startRow (id : String) (time : Int) (r : ServiceEntry) : ServiceEntry :=
  if hasID id r then { r with StartAt := time } else r

/-- UpdateService updates service entry: `UPDATE services SET version = ?, path = ?,
service = ?, user = ?, permissions = ?, state = ?, status = ?, startat = ?, ttl = ?
WHERE id = ?`, then fails when no row was affected. -/
def UpdateService (entry : ServiceEntry) (db : Database) : Database × Option String :=
  let db' := { db with services := db.services.map (updateRow entry) }
  if rowsAffected entry.ID db == 0 then (db', some errNotExist) else (db', none)

/-- RemoveService removes existing service entry: `DELETE FROM services WHERE id = ?`;
the result of `Exec` is returned as is, the affected rows are not counted. -/
def RemoveService (id : String) (db : Database) : Database × Option String :=
  ({ db with services := db.services.filter fun r => !hasID id r }, none)

/-- The INTEGER stored for a `uint`: the driver binds `int64(v)`. -/
def int64 (v : Nat) : Int :=
  if v < 2 ^ 63 then (v : Int) else (v : Int) - 2 ^ 64

/-- Whether `Scan` can read the row back: the integers stored for version and TTL are not
negative, that is both are below 2^63. -/
def readable (r : ServiceEntry) : Bool :=
  decide (r.Version < 2 ^ 63) && decide (r.TTL < 2 ^ 63)

/-- The error of `Scan` on a row it cannot read: the first column whose stored integer does
not convert to `uint`, `version` (column 1) before `ttl` (column 9). -/
def errScan (r : ServiceEntry) : String :=
  if r.Version < 2 ^ 63 then
    "sql: Scan error on column index 9, name \"ttl\": converting driver.Value type int64 (\""
      ++ toString (int64 r.TTL) ++ "\") to a uint: invalid syntax"
  else
    "sql: Scan error on column index 1, name \"version\": converting driver.Value type int64 (\""
      ++ toString (int64 r.Version) ++ "\") to a uint: invalid syntax"

/-- The loop `for rows.Next()` with `rows.Scan` over the selected rows: the entries appended
so far and the error of the first `Scan` that fails. -/
def scanRows : List ServiceEntry → List ServiceEntry × Option String
  | [] => ([], none)
  | r :: rest =>
    if readable r then ((r :: (scanRows rest).1), (scanRows rest).2)
    else ([], some (errScan r))

/-- The order of two ids as texts, character by character (the order of their bytes). -/
def leChars : List Char → List Char → Bool
  | [], _ => true
  | _ :: _, [] => false
  | a :: as, b :: bs =>
    if a.toNat < b.toNat then true else if a = b then leChars as bs else false

/-- The rows of the services table whose id is in the list `ids`, as SQLite delivers them
for `WHERE id IN (...)`: it walks the ids of the list in order and fetches the rows by id,
so they come ordered by id (the statement has no `ORDER BY`). -/
def selectIn (ids : List String) (services : List ServiceEntry) : List ServiceEntry :=
  (services.filter fun s => ids.contains s.ID).insertionSort
    fun a b => leChars a.ID.data b.ID.data = true

/-- GetService returns service entry: `SELECT * FROM SERVICES WHERE id = ?`, first row,
then `Scan`. -/
def GetService (id : String) (db : Database) : Except String ServiceEntry :=
  match db.services.find? (hasID id) with
  | some entry => if readable entry then .ok entry else .error (errScan entry)
  | none => .error errNotExist

/-- GetServices returns all service entries: `SELECT * FROM services`, each row scanned. -/
def GetServices (db : Database) : Except String (List ServiceEntry) :=
  match scanRows db.services with
  | (entries, none) => .ok entries
  | (_, some err) => .error err

/-- SetServiceStatus sets service status: `UPDATE services SET status = ? WHERE id = ?`. -/
def SetServiceStatus (id : String) (status : Int) (db : Database) : Database × Option String :=
  let db' := { db with services := db.services.map (statusRow id status) }
  if rowsAffected id db == 0 then (db', some errNotExist) else (db', none)

/-- SetServiceState sets service state: `UPDATE services SET state = ? WHERE id = ?`. -/
def SetServiceState (id : String) (state : Int) (db : Database) : Database × Option String :=
  let db' := { db with services := db.services.map (stateRow id state) }
  if rowsAffected id db == 0 then (db', some errNotExist) else (db', none)

/-- SetServiceStartTime sets service start time:
`UPDATE services SET startat = ? WHERE id = ?`. -/
def SetServiceStartTime (id : String) (time : Int) (db : Database) : Database × Option String :=
  let db' := { db with services := db.services.map (startRow id time) }
  if rowsAffected id db == 0 then (db', some errNotExist) else (db', none)

/-- AddUsersService adds service ID to users: `INSERT INTO users values(?, ?)`. -/
def AddUsersService (users : List String) (serviceID : String) (db : Database) :
    Database × Option String :=
  if db.users.any (isBinding users serviceID) then (db, some errUsersKey)
  else ({ db with users := db.users ++ [{ users := users, serviceid := serviceID }] }, none)

/-- RemoveUsersService removes service ID from users:
`DELETE FROM users WHERE users = ? AND serviceid = ?`. -/
def RemoveUsersService (users : List String) (serviceID : String) (db : Database) :
    Database × Option String :=
  ({ db with users := db.users.filter fun r => !isBinding users serviceID r }, none)

/-- GetUsersServices returns list of users service entries:
`SELECT * FROM services WHERE id IN (SELECT serviceid FROM users WHERE users = ?)`. -/
def GetUsersServices (users : List String) (db : Database) : Except String (List ServiceEntry) :=
  match scanRows (selectIn ((db.users.filter fun r => r.users == users).map fun r => r.serviceid)
      db.services) with
  | (entries, none) => .ok entries
  | (_, some err) => .error err

/-- IsUsersService returns true if service id belongs to current users:
`SELECT * FROM users WHERE users = ? AND serviceid = ?` has a row. -/
def IsUsersService (users : List String) (id : String) (db : Database) : Except String Bool :=
  .ok (db.users.any (isBinding users id))

/-- GetUsersList returns list of all users: `SELECT DISTINCT users FROM users`. -/
def GetUsersList (db : Database) : Except String (List (List String)) :=
  .ok (db.users.map fun r => r.users).dedup

/-- DeleteUsers deletes users: `DELETE FROM users WHERE users = ?`. -/
def DeleteUsers (users : List String) (db : Database) : Database × Option String :=
  ({ db with users := db.users.filter fun r => !(r.users == users) }, none)

/-- The private `removeAllServices` of the database: `DELETE FROM services;`. -/
def removeAllServices (db : Database) : Database × Option String :=
  ({ db with services := [] }, none)

/-- The private `removeAllUsers` of the database: `DELETE FROM users;`. -/
def removeAllUsers (db : Database) : Database × Option String :=
  ({ db with users := [] }, none)

/-- A call of one of the mutators of the registry. -/
inductive Call where
  | addService (entry : ServiceEntry)
  | updateService (entry : ServiceEntry)
  | removeService (id : String)
  | setServiceStatus (id : String) (status : Int)
  | setServiceState (id : String) (state : Int)
  | setServiceStartTime (id : String) (time : Int)
  | addUsersService (users : List String) (serviceID : String)
  | removeUsersService (users : List String) (serviceID : String)
  | deleteUsers (users : List String)
  | removeAllServices
  | removeAllUsers
deriving Repr

/-- Performs one call on the registry. -/
def Call.run : Call → Database → Database × Option String
  | .addService entry, db => AddService entry db
  | .updateService entry, db => UpdateService entry db
  | .removeService id, db => RemoveService id db
  | .setServiceStatus id status, db => SetServiceStatus id status db
  | .setServiceState id state, db => SetServiceState id state db
  | .setServiceStartTime id time, db => SetServiceStartTime id time db
  | .addUsersService users serviceID, db => AddUsersService users serviceID db
  | .removeUsersService users serviceID, db => RemoveUsersService users serviceID db
  | .deleteUsers users, db => DeleteUsers users db
  | .removeAllServices, db => database.removeAllServices db
  | .removeAllUsers, db => database.removeAllUsers db

/-- The registry after a sequence of calls, whatever each of them returned. -/
def runCalls (calls : List Call) (db : Database) : Database :=
  calls.foldl (fun d c => (c.run d).1) db

end database

end Aos

/-! ## launcher

Of the launcher package only `launcher_internal_test.go` is at hand: it holds
`removeAllServices` and the scenarios run against the launcher.  `launcher.go`
itself (InstallService, SetUsers, removeService, cleanUsersDB, the state and
status constants) is modelled from the specification, on top of the registry
above.  External collaborators (bundle provider, runtime adapter, supervisor)
enter through the outcome they report.  The specification knows no record that
cannot be read: the modelled sweep and removal take the records as the registry
holds them, while what is embedded from the source (`removeAllServices`) reads
them through `GetServices`.
-/

namespace Aos

namespace launcher

open database

/-- Modelled from the spec: the constant `stateInit` of launcher.go, first of the lifecycle
states "one of Init, Running, Stopped, Error" (section 3). -/
def stateInit : Int := 0

/-- Modelled from the spec: the constant `stateRunning` of launcher.go (section 3), used by
TestUsersServices. -/
def stateRunning : Int := 1

/-- Modelled from the spec: the constant `stateStopped` of launcher.go (section 3). -/
def stateStopped : Int := 2

/-- Modelled from the spec: the constant `stateError` of launcher.go (section 3). -/
def stateError : Int := 3

/-- Modelled from the spec: the status constant for "last operation outcome OK" (section 3). -/
def statusOK : Int := 0

/-- Modelled from the spec: the status constant for "last operation outcome Error". -/
def statusError : Int := 1

/-- Modelled from the spec: the action of a status event, "action in Install, Remove"
(section 3); the test reads `ActionInstall`. -/
inductive Action where
  | ActionInstall
  | ActionRemove
deriving DecidableEq, Repr, Inhabited

/-- Modelled from the spec: the status event sent on `StatusChannel`, "id, version, action,
error or nil" (section 3); the test reads `status.ID`, `status.Version`, `status.Action` and
`status.Err`. -/
structure ActionStatus where
  Action : Action
  ID : String
  Version : Nat
  Err : Option String
deriving DecidableEq, Repr, Inhabited

/-- Modelled from the spec: the part of `amqp.ServiceInfoFromCloud` an install request
carries, "install request (id, version, metadata)" (section 4.1). -/
structure ServiceInfoFromCloud where
  ID : String
  Version : Nat
deriving DecidableEq, Repr, Inhabited

/-- Modelled from the spec: what the bundle provider and the runtime adapter hand back for
an install, "fetch(serviceMetadata) gives localBundlePath" and "configure(bundlePath,
permissions, netHints) gives runtimeHandle" (section 6). -/
structure Bundle where
  Path : String
  ServiceName : String
  UserName : String
  Permissions : String
deriving DecidableEq, Repr, Inhabited

/-- Modelled from the spec: the runtime supervisor as the launcher sees it, counting the
`Reload` calls it received and holding what `Reload` reports. -/
structure Systemd where
  reloads : Nat
  reloadErr : Option String
deriving DecidableEq, Repr, Inhabited

/-- Modelled from the spec: the launcher, owning the registry handle, the active user set
(section 3), the supervisor and `config.DefaultServiceTTL`. -/
structure Launcher where
  db : Database
  users : List String
  systemd : Systemd
  DefaultServiceTTL : Nat
deriving DecidableEq, Repr, Inhabited

/-- Modelled from the spec: `systemd.Reload`, "reload() (batch reconciliation)" (section 6);
every call is counted. -/
def Systemd.Reload (s : Systemd) : Systemd × Option String :=
  ({ s with reloads := s.reloads + 1 }, s.reloadErr)

/-- Modelled from the spec: the Conflict error of a stale or equal version install
(section 7). -/
def errVersionConflict : String := "version conflict"

/-- Nanoseconds in a day, `time.Hour * 24`. -/
def day : Int := 24 * 3600 * 1000000000

/-- Modelled from the spec: "compute age = now - startedAt; if age > ttlDays, mark for
reclamation" (section 4.4, step 2). -/
def expired (now : Int) (s : ServiceEntry) : Bool :=
  decide (now - s.StartAt > (s.TTL : Int) * day)

/-- Modelled from the spec: the registry record written when an install reaches Running
(sections 3 and 4.2): runtime configuration captured at install time, state Running,
status OK, started now, default TTL. -/
def newEntry (info : ServiceInfoFromCloud) (b : Bundle) (now : Int) (ttl : Nat) : ServiceEntry :=
  { ID := info.ID, Version := info.Version, Path := b.Path, ServiceName := b.ServiceName,
    UserName := b.UserName, Permissions := b.Permissions, State := stateRunning,
    Status := statusOK, StartAt := now, TTL := ttl }

/-- Modelled from the spec: the lifecycle operation run for an install request, with the
status event it sends (sections 4.1 and 4.2).  `bundle` is what fetch, configure and start
report for this request.  No record for the id: proceed as new, and on success add the
record and bind it to the active user set.  A record with a lower version: proceed as
upgrade, the record is updated in place.  Otherwise reject as stale: version conflict,
nothing is touched.  A failing step aborts the attempt and leaves the registry as it was. -/
def InstallService (bundle : Except String Bundle) (now : Int) (info : ServiceInfoFromCloud)
    (l : Launcher) : Launcher × ActionStatus :=
  match GetService info.ID l.db with
  | .ok old =>
    if old.Version < info.Version then
      match bundle with
      | .error e => (l, ⟨.ActionInstall, info.ID, info.Version, some e⟩)
      | .ok b =>
        let res := UpdateService (newEntry info b now l.DefaultServiceTTL) l.db
        ({ l with db := res.1 }, ⟨.ActionInstall, info.ID, info.Version, res.2⟩)
    else (l, ⟨.ActionInstall, info.ID, info.Version, some errVersionConflict⟩)
  | .error _ =>
    match bundle with
    | .error e => (l, ⟨.ActionInstall, info.ID, info.Version, some e⟩)
    | .ok b =>
      match AddService (newEntry info b now l.DefaultServiceTTL) l.db with
      | (db1, some e) => ({ l with db := db1 }, ⟨.ActionInstall, info.ID, info.Version, some e⟩)
      | (db1, none) =>
        let res := AddUsersService l.users info.ID db1
        ({ l with db := res.1 }, ⟨.ActionInstall, info.ID, info.Version, res.2⟩)

/-- Modelled from the spec: deletion of the user binding of a service id, "record deleted
from the registry and from its user binding" (section 4.2), through the registry contract:
RemoveUsersService for every users list of GetUsersList. -/
def removeBindings (id : String) (db : Database) : Database :=
  match GetUsersList db with
  | .ok usersList => usersList.foldl (fun d users => (RemoveUsersService users id d).1) db
  | .error _ => db

/-- Modelled from the spec: `launcher.removeService`, the remove path "teardown, record
deleted from the registry and from its user binding; if the service is already absent,
remove is a no-op success" (section 4.2).  Whether the id has a record is asked of the
records the registry holds, as the specification has them, not of a `Scan`. -/
def removeService (id : String) (l : Launcher) : Launcher × Option String :=
  if l.db.services.any (hasID id) then
    match RemoveService id l.db with
    | (db1, some e) => ({ l with db := db1 }, some e)
    | (db1, none) => ({ l with db := removeBindings id db1 }, none)
  else (l, none)

/-- Modelled from the spec: one round of `launcher.cleanUsersDB`: a users list "left with
zero associated service ids is purged from the registry" (section 4.4, step 7). -/
def cleanUsers (d : Database) (users : List String) : Database :=
  match GetUsersServices users d with
  | .ok [] => (DeleteUsers users d).1
  | _ => d

/-- Modelled from the spec: `launcher.cleanUsersDB`, "after processing, any UserBinding left
with zero associated service ids is purged from the registry" (section 4.4, step 7). -/
def cleanUsersDB (l : Launcher) : Launcher × Option String :=
  match GetUsersList l.db with
  | .error e => (l, some e)
  | .ok usersList => ({ l with db := usersList.foldl cleanUsers l.db }, none)

/-- The fan-out of `removeAllServices`: one goroutine per service of the snapshot calls
`removeService`, logs its error and reports on the status channel; the loop over the
channel waits for all of them.  `sched` is the order in which the scheduler lets the
goroutines run. -/
def removeAllFanOut (removeService : String → Launcher → Launcher × Option String)
    (sched : List ServiceEntry → List ServiceEntry) (services : List ServiceEntry)
    (l : Launcher) : Launcher :=
  (sched services).foldl (fun l1 service => (removeService service.ID l1).1) l

/-- The launcher as `removeAllServices` finds it when it reads the registry for the second
time: every goroutine has reported and `systemd.Reload` has been called. -/
def removeAllReloaded (removeService : String → Launcher → Launcher × Option String)
    (sched : List ServiceEntry → List ServiceEntry) (l : Launcher) : Launcher :=
  let l1 := removeAllFanOut removeService sched l.db.services l
  { l1 with systemd := l1.systemd.Reload.1 }

/-- The function `removeAllServices` of launcher_internal_test.go.  The helper
`launcher.removeService` it calls is a parameter. -/
def removeAllServices (removeService : String → Launcher → Launcher × Option String)
    (sched : List ServiceEntry → List ServiceEntry) (l : Launcher) :
    Launcher × Option String :=
  match GetServices l.db with
  | .error e => (l, some e)
  | .ok services =>
    let l1 := removeAllFanOut removeService sched services l
    let l2 := { l1 with systemd := l1.systemd.Reload.1 }
    match l1.systemd.Reload.2 with
    | some e => (l2, some e)
    | none =>
      match GetServices l2.db with
      | .error e => (l2, some e)
      | .ok services =>
        if services.length != 0 then (l2, some "Can't remove all services")
        else cleanUsersDB l2

/-- Modelled from the spec: start of an in-scope service during the sweep (section 4.4,
step 5); the record becomes Running and its start time is now. -/
def startService (id : String) (now : Int) (l : Launcher) : Launcher :=
  { l with db := (SetServiceStartTime id now (SetServiceState id stateRunning l.db).1).1 }

/-- Modelled from the spec: stop of an out-of-scope service during the sweep (section 4.4,
step 4); the record becomes Stopped and is retained. -/
def stopService (id : String) (l : Launcher) : Launcher :=
  { l with db := (SetServiceState id stateStopped l.db).1 }

/-- Modelled from the spec: steps 3 to 5 of the sweep for one record of the snapshot that
is not reclaimed: bound to the active user set and Stopped, it is started; not bound to it
and Running, it is stopped. -/
def rebindService (now : Int) (l : Launcher) (s : ServiceEntry) : Launcher :=
  match IsUsersService l.users s.ID l.db with
  | .ok true => if s.State = stateStopped then startService s.ID now l else l
  | .ok false => if s.State = stateRunning then stopService s.ID l else l
  | .error _ => l

/-- What steps 3 to 5 of the sweep, run over the snapshot records `ss`, make of one record
of the registry: a record bound to the active user set is started when a snapshot record of
its id is Stopped, a record not bound to it is stopped when a snapshot record of its id is
Running (closed form of folding `rebindService` over `ss`). -/
def rebindRow (now : Int) (users : List String) (rows : List UsersRow) (ss : List ServiceEntry)
    (r : ServiceEntry) : ServiceEntry :=
  if rows.any (isBinding users r.ID) then
    if ss.any (fun s => s.ID == r.ID && s.State == stateStopped) then
      { r with State := stateRunning, StartAt := now }
    else r
  else
    if ss.any (fun s => s.ID == r.ID && s.State == stateRunning) then
      { r with State := stateStopped }
    else r

/-- The launcher after steps 1 to 5 of the sweep for the new active user set `users`, in
closed form: the records are rebound by `rebindRow` over the snapshot records that are not
reclaimed. -/
def rebound (users : List String) (now : Int) (l : Launcher) : Launcher :=
  let kept := l.db.services.filter fun s => !expired now s
  { l with users := users
           db := ⟨l.db.services.map (rebindRow now users l.db.users kept), l.db.users⟩ }

/-- Modelled from the spec: the User-Binding and TTL sweeper (section 4.4): snapshot all
records (1), mark those older than their TTL (2), stop and start the others by scope
(3 to 5), remove the reclaimed ones (6), purge the users lists left without service (7).
The snapshot is the records the registry holds, as the specification has them. -/
def sweep (now : Int) (l : Launcher) : Launcher × Option String :=
  let services := l.db.services
  let l1 := (services.filter fun s => !expired now s).foldl (rebindService now) l
  let l2 := (services.filter (expired now)).foldl (fun l0 s => (removeService s.ID l0).1) l1
  cleanUsersDB l2

/-- Modelled from the spec: `launcher.SetUsers`, "replacing the active user set triggers
the User-Binding and TTL Sweeper" (section 3). -/
def SetUsers (users : List String) (now : Int) (l : Launcher) : Launcher × Option String :=
  sweep now { l with users := users }

/-- Modelled from the spec: a request the launcher serves: an install request, with what
fetch, configure and start report for it, or a remove request (section 4.1), or the
replacement of the active user set (section 3). -/
inductive Request where
  | install (bundle : Except String Bundle) (now : Int) (info : ServiceInfoFromCloud)
  | remove (id : String)
  | setUsers (users : List String) (now : Int)

/-- Modelled from the spec: the launcher after it has served one request. -/
def Request.run (l : Launcher) : Request → Launcher
  | .install bundle now info => (InstallService bundle now info l).1
  | .remove id => (removeService id l).1
  | .setUsers users now => (SetUsers users now l).1

end launcher

end Aos

/-! ## visclient/visclient.go

The client of the vehicle information service.  One call of `processRequest` is embedded
as seen from the calling goroutine: the connection and the reader goroutine
(`processMessages`) enter through what they do with the request, a `Transport`.  The
pending-requests `sync.Map` is the list of its keys, the channels stored under them are
left out.  A nil slice is `none`.
-/

namespace Aos

namespace visclient

/-- What `encoding/json` decodes into an `interface{}`: nil, bool, float64, string,
`[]interface{}` or `map[string]interface{}`.  A map is the list of its entries, looked up by
key; the value of a number plays no role here. -/
inductive Value where
  | null
  | bool (b : Bool)
  | number (n : Int)
  | string (s : String)
  | array (items : List Value)
  | object (entries : List (String × Value))

/-- The type `errorInfo`. -/
structure errorInfo where
  Number : Int
  Reason : String
  Message : String

/-- The type `visRequest`. -/
structure visRequest where
  Action : String
  Path : String
  RequestID : String

/-- The type `visResponse`; a nil `Error` or `SubscriptionID` is `none`. -/
structure visResponse where
  Action : String
  RequestID : String
  Value : Value
  Error : Option errorInfo
  TTL : Int
  SubscriptionID : Option String
  Timestamp : Int

/-- VisClient VIS client object: the keys of the pending requests, the cached VIN (empty
when unset), the cached users (nil when unset) and the next request id. -/
structure VisClient where
  requests : List Nat
  vin : String
  users : Option (List String)
  requestID : Nat

/-- What happens to one request on the connection: `json.Marshal` fails (it cannot, for a
struct of three strings, but the source has the branch), `WriteMessage` fails, no response
arrives within `websocketTimeout`, or the reader goroutine hands over the response with the
request id. -/
inductive Transport where
  | marshalFailed (err : String)
  | writeFailed (err : String)
  | timeout
  | response (r : visResponse)

/-- The call `vis.requests.Store(requestID, rspChannel)`. -/
def store (requestID : Nat) (requests : List Nat) : List Nat :=
  requestID :: requests.filter fun k => k != requestID

/-- The call `vis.requests.Delete(requestID)`. -/
def delete (requestID : Nat) (requests : List Nat) : List Nat :=
  requests.filter fun k => k != requestID

/-- The error built by `fmt.Errorf("Error: %d, message: %s, reason: %s", ...)`. -/
def errorText (e : errorInfo) : String :=
  "Error: " ++ toString e.Number ++ ", message: " ++ e.Message ++ ", reason: " ++ e.Reason

/-- The function `getValueFromResponse`. -/
def getValueFromResponse (path : String) (rsp : visResponse) : Except String Value :=
  match rsp.Value with
  | .object valueMap =>
    match valueMap.lookup path with
    | some value => .ok value
    | none => .error "Path not found"
  | .null => .error "No value found"
  | value => .ok value

/-- The method `processRequest`: take the next request id (a uint64), store the response
channel under it, write the request, wait for the response or the timeout.  The request
itself only travels to the service: what comes of it is `net`. -/
def processRequest (net : Transport) (_req : visRequest) (vis : VisClient) :
    VisClient × Except String visResponse :=
  let requestID := vis.requestID
  let vis1 := { vis with requestID := (vis.requestID + 1) % 2 ^ 64 }
  match net with
  | .marshalFailed err => (vis1, .error err)
  | .writeFailed err =>
    ({ vis1 with requests := delete requestID (store requestID vis1.requests) }, .error err)
  | .timeout =>
    ({ vis1 with requests := delete requestID (store requestID vis1.requests) },
      .error "Wait response timeout")
  | .response r =>
    match r.Error with
    | some e => ({ vis1 with requests := store requestID vis1.requests }, .error (errorText e))
    | none => ({ vis1 with requests := delete requestID (store requestID vis1.requests) }, .ok r)

/-- GetVIN returns VIN. -/
def GetVIN (net : Transport) (vis : VisClient) : VisClient × Except String String :=
  if vis.vin = "" then
    match processRequest net ⟨"get", "Attribute.Vehicle.VehicleIdentification.VIN", ""⟩ vis with
    | (vis1, .error err) => (vis1, .error err)
    | (vis1, .ok rsp) =>
      match getValueFromResponse "Attribute.Vehicle.VehicleIdentification.VIN" rsp with
      | .error err => (vis1, .error err)
      | .ok (.string vin) => ({ vis1 with vin := vin }, .ok vin)
      | .ok _ => ({ vis1 with vin := "" }, .error "Wrong VIN type")
  else (vis, .ok vis.vin)

/-- The loop of GetUsers over the decoded items, from index `i` on: a string is written to
`vis.users[i]`, anything else ends the loop with "Wrong users type". -/
def fillUsers : List Value → Nat → List String → List String × Option String
  | [], _, users => (users, none)
  | .string item :: rest, i, users => fillUsers rest (i + 1) (users.set i item)
  | _ :: _, _, users => (users, some "Wrong users type")

/-- GetUsers returns user list. -/
def GetUsers (net : Transport) (vis : VisClient) : VisClient × Except String (List String) :=
  match vis.users with
  | some users => (vis, .ok users)
  | none =>
    match processRequest net ⟨"get", "Attribute.Vehicle.UserIdentification.Users", ""⟩ vis with
    | (vis1, .error err) => (vis1, .error err)
    | (vis1, .ok rsp) =>
      match getValueFromResponse "Attribute.Vehicle.UserIdentification.Users" rsp with
      | .error err => (vis1, .error err)
      | .ok (.array itfs) =>
        match fillUsers itfs 0 (List.replicate itfs.length "") with
        | (users, some err) => ({ vis1 with users := some users }, .error err)
        | (users, none) => ({ vis1 with users := some users }, .ok users)
      | .ok _ => (vis1, .error "Wrong users type")

end visclient

end Aos

/-! ## vendor/gitpct.epam.com/epmd-aepr/aos_common/migration/migration.go

`DoMigrate` drives a `migrate.Migrate` instance of the golang-migrate library.  The instance
enters through what its methods report; the calls `DoMigrate` makes on it are logged.  The
errors are compared with the sentinels `migrate.ErrNilVersion` and `migrate.ErrNoChange`,
hence an own type for them instead of the bare message.
-/

namespace Aos

namespace migration

/-- A Go `error` as `DoMigrate` tells them apart: the two sentinels of the library, or any
other error with its message. -/
inductive Error where
  | ErrNilVersion
  | ErrNoChange
  | other (text : String)
deriving DecidableEq, Repr, Inhabited

/-- The text `%s` prints for an error: `err.Error()`. -/
def Error.text : Error → String
  | .ErrNilVersion => "no migration"
  | .ErrNoChange => "no change"
  | .other text => text

/-- The migration instance `m` (a `*migrate.Migrate`): what `m.Version()` returns (version, dirty, err), what
`m.Force(version)` returns and what `m.Migrate(version)` returns; a nil error is `none`. -/
structure Instance where
  Version : Nat × Bool × Option Error
  Force : Int → Option Error
  Migrate : Nat → Option Error

/-- A call that changes the database, as made on the migration instance. -/
inductive Invoked where
  | Force (version : Int)
  | Migrate (version : Nat)
deriving DecidableEq, Repr, Inhabited

/-- The second half of `DoMigrate`, from `if dirty == true` on; `log` holds the calls made so
far. -/
def migrateFrom (m : Instance) (log : List Invoked) (version : Nat) (dirty : Bool)
    (migrateVersion : Nat) : List Invoked × Option Error :=
  if dirty = true then (log, some (.other "can't update, db is dirty"))
  else if version = migrateVersion then (log, none)
  else
    match m.Migrate migrateVersion with
    | some .ErrNoChange => (log ++ [.Migrate migrateVersion], none)
    | err => (log ++ [.Migrate migrateVersion], err)

/-- DoMigrate does migration on provided database.  `inst` is the outcome of
`getMigrationFromInstance`; the result is the list of calls made on the instance, in order,
and the error returned. -/
def DoMigrate (inst : Except Error Instance) (migrateVersion : Nat) :
    List Invoked × Option Error :=
  match inst with
  | .error err => ([], some err)
  | .ok m =>
    match m.Version with
    | (_, dirty, some .ErrNilVersion) =>
      match m.Force 0 with
      | some err => ([.Force 0], some (.other ("unable to force version. err: " ++ err.text)))
      | none => migrateFrom m [.Force 0] 0 dirty migrateVersion
    | (_, _, some err) =>
      ([], some (.other ("unable to get migration version: " ++ err.text)))
    | (version, dirty, none) => migrateFrom m [] version dirty migrateVersion

end migration

end Aos

/-! ## Properties of the registry -/

namespace Aos

namespace database

theorem hasID_iff (id : String) (r : ServiceEntry) : hasID id r = true ↔ r.ID = id := by
  simp [hasID]

theorem hasID_false_iff (id : String) (r : ServiceEntry) : hasID id r = false ↔ r.ID ≠ id := by
  simp [hasID]

theorem isBinding_iff (users : List String) (id : String) (r : UsersRow) :
    isBinding users id r = true ↔ r.users = users ∧ r.serviceid = id := by
  simp [isBinding]

theorem readable_iff (r : ServiceEntry) :
    readable r = true ↔ r.Version < 2 ^ 63 ∧ r.TTL < 2 ^ 63 := by
  simp [readable]

/-- When every row can be read, the scan returns the rows and no error. -/
theorem scanRows_of_readable (rows : List ServiceEntry) (h : ∀ r ∈ rows, readable r = true) :
    scanRows rows = (rows, none) := by
  induction rows with
  | nil => rfl
  | cons a t ih =>
    have ha := h a (List.mem_cons_self a t)
    have ht := ih (fun r hr => h r (List.mem_cons_of_mem a hr))
    simp [scanRows, ha, ht]

/-- A scan without error has read every row. -/
theorem scanRows_ok (rows : List ServiceEntry) (h : (scanRows rows).2 = none) :
    (scanRows rows).1 = rows ∧ ∀ r ∈ rows, readable r = true := by
  induction rows with
  | nil => exact ⟨rfl, by simp⟩
  | cons a t ih =>
    by_cases ha : readable a = true
    · simp only [scanRows, ha, if_true] at h ⊢
      obtain ⟨h1, h2⟩ := ih h
      refine ⟨by rw [h1], ?_⟩
      intro r hr
      rcases List.mem_cons.mp hr with rfl | hr
      · exact ha
      · exact h2 r hr
    · simp [scanRows, ha] at h

/-- A scan with an unreadable row ends in an error. -/
theorem scanRows_err (rows : List ServiceEntry) (r : ServiceEntry) (hr : r ∈ rows)
    (hbad : readable r = false) : ∃ msg, (scanRows rows).2 = some msg := by
  cases h : (scanRows rows).2 with
  | some msg => exact ⟨msg, rfl⟩
  | none =>
    have := (scanRows_ok rows h).2 r hr
    rw [hbad] at this
    cases this

/-- What the scan has collected is a prefix of the rows, error or not. -/
theorem scanRows_initial (rows : List ServiceEntry) : (scanRows rows).1 <+: rows := by
  induction rows with
  | nil => exact List.prefix_refl _
  | cons a t ih =>
    by_cases ha : readable a = true
    · simp only [scanRows, ha, if_true]
      exact (List.prefix_cons_inj a).mpr ih
    · simp only [scanRows, ha]
      exact List.nil_prefix

theorem GetServices_ok_iff (db : Database) (entries : List ServiceEntry) :
    GetServices db = .ok entries ↔
      entries = db.services ∧ ∀ r ∈ db.services, readable r = true := by
  unfold GetServices
  constructor
  · intro h
    split at h
    · rename_i es heq
      cases h
      have h2 : (scanRows db.services).2 = none := by rw [heq]
      have h1 := scanRows_ok db.services h2
      rw [heq] at h1
      exact ⟨h1.1, h1.2⟩
    · cases h
  · rintro ⟨rfl, hall⟩
    rw [scanRows_of_readable _ hall]

theorem GetServices_of_readable (db : Database) (h : ∀ r ∈ db.services, readable r = true) :
    GetServices db = .ok db.services :=
  (GetServices_ok_iff db db.services).mpr ⟨rfl, h⟩

theorem GetService_of_find (id : String) (db : Database) (entry : ServiceEntry)
    (h : db.services.find? (hasID id) = some entry) :
    GetService id db = if readable entry then .ok entry else .error (errScan entry) := by
  simp [GetService, h]

theorem GetService_of_absent (id : String) (db : Database)
    (h : ∀ r ∈ db.services, r.ID ≠ id) : GetService id db = .error errNotExist := by
  have hnone : db.services.find? (hasID id) = none := by
    rw [List.find?_eq_none]
    intro r hr
    simp [hasID, h r hr]
  simp [GetService, hnone]

theorem mem_selectIn (ids : List String) (services : List ServiceEntry) (s : ServiceEntry) :
    s ∈ selectIn ids services ↔ s ∈ services ∧ s.ID ∈ ids := by
  simp [selectIn, List.mem_insertionSort, List.mem_filter]

theorem selectIn_perm (ids : List String) (services : List ServiceEntry) :
    (selectIn ids services).Perm (services.filter fun s => ids.contains s.ID) :=
  List.perm_insertionSort _ _

theorem selectIn_eq_nil_iff (ids : List String) (services : List ServiceEntry) :
    selectIn ids services = [] ↔ ∀ s ∈ services, s.ID ∉ ids := by
  rw [List.eq_nil_iff_forall_not_mem]
  constructor
  · intro h s hs hid
    exact h s ((mem_selectIn ids services s).mpr ⟨hs, hid⟩)
  · intro h s hs
    obtain ⟨h1, h2⟩ := (mem_selectIn ids services s).mp hs
    exact h s h1 h2

/-- The service ids selected by `SELECT serviceid FROM users WHERE users = ?`. -/
theorem mem_boundIDs (users : List String) (id : String) (db : Database) :
    id ∈ ((db.users.filter fun r => r.users == users).map fun r => r.serviceid) ↔
      db.users.any (isBinding users id) = true := by
  simp only [List.mem_map, List.mem_filter, List.any_eq_true, isBinding, beq_iff_eq,
    Bool.and_eq_true]
  constructor
  · rintro ⟨row, ⟨hrow, hu⟩, hid⟩
    exact ⟨row, hrow, hu, hid⟩
  · rintro ⟨row, hrow, hu, hid⟩
    exact ⟨row, ⟨hrow, hu⟩, hid⟩

theorem GetUsersServices_ok_iff (users : List String) (db : Database)
    (entries : List ServiceEntry) :
    GetUsersServices users db = .ok entries ↔
      entries = selectIn ((db.users.filter fun r => r.users == users).map fun r => r.serviceid)
        db.services ∧
      ∀ r ∈ selectIn ((db.users.filter fun r => r.users == users).map fun r => r.serviceid)
        db.services, readable r = true := by
  unfold GetUsersServices
  constructor
  · intro h
    split at h
    · rename_i es heq
      cases h
      have h2 : (scanRows (selectIn ((db.users.filter fun r => r.users == users).map
          fun r => r.serviceid) db.services)).2 = none := by rw [heq]
      have h1 := scanRows_ok _ h2
      rw [heq] at h1
      exact ⟨h1.1, h1.2⟩
    · cases h
  · rintro ⟨rfl, hall⟩
    rw [scanRows_of_readable _ hall]

/-- GetUsersServices returns the empty list exactly when no service record is bound to the
users list. -/
theorem GetUsersServices_eq_nil_iff (users : List String) (db : Database) :
    GetUsersServices users db = .ok [] ↔
      ∀ s ∈ db.services, db.users.any (isBinding users s.ID) = false := by
  rw [GetUsersServices_ok_iff]
  constructor
  · rintro ⟨hnil, _⟩ s hs
    have := (selectIn_eq_nil_iff _ _).mp hnil.symm s hs
    rw [mem_boundIDs] at this
    simpa using this
  · intro h
    have hnil : selectIn ((db.users.filter fun r => r.users == users).map fun r => r.serviceid)
        db.services = [] := by
      rw [selectIn_eq_nil_iff]
      intro s hs
      rw [mem_boundIDs, h s hs]
      simp
    rw [hnil]
    exact ⟨rfl, by simp⟩

theorem rowsAffected_eq_zero_iff (id : String) (db : Database) :
    rowsAffected id db = 0 ↔ ∀ r ∈ db.services, r.ID ≠ id := by
  simp [rowsAffected, List.filter_eq_nil_iff, hasID]

theorem updateRow_ID (entry r : ServiceEntry) : (updateRow entry r).ID = r.ID := by
  unfold updateRow; split <;> rfl

theorem statusRow_ID (id : String) (status : Int) (r : ServiceEntry) :
    (statusRow id status r).ID = r.ID := by
  unfold statusRow; split <;> rfl

theorem stateRow_ID (id : String) (state : Int) (r : ServiceEntry) :
    (stateRow id state r).ID = r.ID := by
  unfold stateRow; split <;> rfl

theorem startRow_ID (id : String) (time : Int) (r : ServiceEntry) :
    (startRow id time r).ID = r.ID := by
  unfold startRow; split <;> rfl

theorem updateRow_of_ne (entry r : ServiceEntry) (h : r.ID ≠ entry.ID) : updateRow entry r = r := by
  simp [updateRow, hasID, h]

theorem updateRow_of_eq (entry r : ServiceEntry) (h : r.ID = entry.ID) :
    updateRow entry r = entry := by
  cases entry; cases r
  simp only at h
  simp [updateRow, hasID, h]

theorem statusRow_of_ne (id : String) (status : Int) (r : ServiceEntry) (h : r.ID ≠ id) :
    statusRow id status r = r := by
  simp [statusRow, hasID, h]

theorem stateRow_of_ne (id : String) (state : Int) (r : ServiceEntry) (h : r.ID ≠ id) :
    stateRow id state r = r := by
  simp [stateRow, hasID, h]

theorem startRow_of_ne (id : String) (time : Int) (r : ServiceEntry) (h : r.ID ≠ id) :
    startRow id time r = r := by
  simp [startRow, hasID, h]

/-- A row update that fixes every row of a list leaves the list as it is. -/
theorem map_eq_self_of_forall {α : Type} (f : α → α) (l : List α) (h : ∀ r ∈ l, f r = r) :
    l.map f = l := by
  induction l with
  | nil => rfl
  | cons a t ih =>
    simp only [List.map_cons]
    rw [h a (List.mem_cons_self a t), ih (fun r hr => h r (List.mem_cons_of_mem a hr))]

theorem UpdateService_services (entry : ServiceEntry) (db : Database) :
    (UpdateService entry db).1.services = db.services.map (updateRow entry) := by
  unfold UpdateService; split <;> rfl

theorem UpdateService_users (entry : ServiceEntry) (db : Database) :
    (UpdateService entry db).1.users = db.users := by
  unfold UpdateService; split <;> rfl

theorem SetServiceStatus_services (id : String) (status : Int) (db : Database) :
    (SetServiceStatus id status db).1.services = db.services.map (statusRow id status) := by
  unfold SetServiceStatus; split <;> rfl

theorem SetServiceStatus_users (id : String) (status : Int) (db : Database) :
    (SetServiceStatus id status db).1.users = db.users := by
  unfold SetServiceStatus; split <;> rfl

theorem SetServiceState_services (id : String) (state : Int) (db : Database) :
    (SetServiceState id state db).1.services = db.services.map (stateRow id state) := by
  unfold SetServiceState; split <;> rfl

theorem SetServiceState_users (id : String) (state : Int) (db : Database) :
    (SetServiceState id state db).1.users = db.users := by
  unfold SetServiceState; split <;> rfl

theorem SetServiceStartTime_services (id : String) (time : Int) (db : Database) :
    (SetServiceStartTime id time db).1.services = db.services.map (startRow id time) := by
  unfold SetServiceStartTime; split <;> rfl

theorem SetServiceStartTime_users (id : String) (time : Int) (db : Database) :
    (SetServiceStartTime id time db).1.users = db.users := by
  unfold SetServiceStartTime; split <;> rfl

theorem find?_map_updateRow (entry : ServiceEntry) (l : List ServiceEntry)
    (h : ∃ r ∈ l, r.ID = entry.ID) :
    (l.map (updateRow entry)).find? (hasID entry.ID) = some entry := by
  induction l with
  | nil => simp at h
  | cons a t ih =>
    by_cases ha : a.ID = entry.ID
    · simp [List.find?_cons, updateRow_of_eq entry a ha, hasID]
    · have ht : ∃ r ∈ t, r.ID = entry.ID := by
        obtain ⟨r, hr, hre⟩ := h
        rcases List.mem_cons.mp hr with rfl | hr
        · exact absurd hre ha
        · exact ⟨r, hr, hre⟩
      simp [List.find?_cons, updateRow_of_ne entry a ha, hasID, ha]
      simpa [hasID] using ih ht

theorem find?_map_updateRow_of_ne (entry : ServiceEntry) (id : String) (l : List ServiceEntry)
    (h : id ≠ entry.ID) :
    (l.map (updateRow entry)).find? (hasID id) = l.find? (hasID id) := by
  induction l with
  | nil => rfl
  | cons a t ih =>
    by_cases ha : a.ID = entry.ID
    · have hne : a.ID ≠ id := fun e => h (e ▸ ha)
      have hne' : entry.ID ≠ id := fun e => h e.symm
      simp [List.find?_cons, updateRow_of_eq entry a ha, hasID, hne, hne', ih]
    · simp [List.find?_cons, updateRow_of_ne entry a ha, ih]

/-- Counterexample for C2: version 5 of "service0" is replaced by version 2^63.  UpdateService
succeeds, the stored INTEGER is negative, and GetService of the id fails in `Scan` instead
of returning the entry. -/
theorem UpdateService_unreadable_version :
    (UpdateService ⟨"service0", 9223372036854775808, "p6", "s", "u", "", 1, 0, 7, 30⟩
        ⟨[⟨"service0", 5, "p5", "s", "u", "", 1, 0, 3, 30⟩], []⟩).2 = none ∧
    GetService "service0"
      (UpdateService ⟨"service0", 9223372036854775808, "p6", "s", "u", "", 1, 0, 7, 30⟩
        ⟨[⟨"service0", 5, "p5", "s", "u", "", 1, 0, 3, 30⟩], []⟩).1
      = .error ("sql: Scan error on column index 1, name \"version\": converting "
          ++ "driver.Value type int64 (\"-9223372036854775808\") to a uint: invalid syntax") :=
  ⟨rfl, by rfl⟩

/-- C2, amended. UpdateService on a registry that holds a record with the id of `entry`
succeeds, keeps the number of records, keeps every record with another id where it was (and
what GetService returns for every other id), makes every record with that id equal to
`entry` and does not touch the user bindings; GetService for that id returns exactly
`entry` when the version and the TTL of `entry` are below 2^63, and the error of `Scan`
otherwise. -/
theorem UpdateService_replaces_in_place (entry : ServiceEntry) (db : Database)
    (h : ∃ r ∈ db.services, r.ID = entry.ID) :
    (UpdateService entry db).2 = none ∧
    (UpdateService entry db).1.services.length = db.services.length ∧
    (∀ (i : Nat) (r : ServiceEntry), db.services[i]? = some r → r.ID ≠ entry.ID →
      (UpdateService entry db).1.services[i]? = some r) ∧
    (∀ id, id ≠ entry.ID →
      GetService id (UpdateService entry db).1 = GetService id db) ∧
    (∀ r ∈ (UpdateService entry db).1.services, r.ID = entry.ID → r = entry) ∧
    rowsAffected entry.ID (UpdateService entry db).1 = rowsAffected entry.ID db ∧
    (entry.Version < 2 ^ 63 → entry.TTL < 2 ^ 63 →
      GetService entry.ID (UpdateService entry db).1 = .ok entry) ∧
    (¬ (entry.Version < 2 ^ 63 ∧ entry.TTL < 2 ^ 63) →
      GetService entry.ID (UpdateService entry db).1 = .error (errScan entry)) ∧
    (UpdateService entry db).1.users = db.users := by
  have hcount : rowsAffected entry.ID db ≠ 0 := by
    rw [Ne, rowsAffected_eq_zero_iff]
    obtain ⟨r, hr, hre⟩ := h
    exact fun hall => hall r hr hre
  have hget := GetService_of_find entry.ID (UpdateService entry db).1 entry
    (by rw [UpdateService_services]; exact find?_map_updateRow entry _ h)
  refine ⟨?_, ?_, ?_, ?_, ?_, ?_, ?_, ?_, UpdateService_users entry db⟩
  · simp [UpdateService, hcount]
  · simp [UpdateService_services]
  · intro i r hir hne
    simp [UpdateService_services, List.getElem?_map, hir, updateRow_of_ne entry r hne]
  · intro id hid
    simp only [GetService, UpdateService_services, find?_map_updateRow_of_ne entry id _ hid]
  · intro r hr hre
    rw [UpdateService_services, List.mem_map] at hr
    obtain ⟨r0, _, rfl⟩ := hr
    rw [updateRow_ID] at hre
    exact updateRow_of_eq entry r0 hre
  · simp only [rowsAffected, UpdateService_services, List.filter_map, List.length_map]
    congr 1
    apply List.filter_congr
    intro r _
    simp [hasID, updateRow_ID]
  · intro hv ht
    rw [hget, (readable_iff entry).mpr ⟨hv, ht⟩]
    rfl
  · intro hbad
    have hr : readable entry = false := by
      rw [Bool.eq_false_iff, Ne, readable_iff]
      exact hbad
    rw [hget, hr]
    rfl

/-- Witness for C2: version 6 of "service0" replaces version 5; one record is left, and it
is the one of version 6. -/
theorem UpdateService_replaces_in_place_witness :
    GetService "service0"
      (UpdateService ⟨"service0", 6, "p6", "s", "u", "", 1, 0, 7, 30⟩
        ⟨[⟨"service0", 5, "p5", "s", "u", "", 1, 0, 3, 30⟩], []⟩).1
      = .ok ⟨"service0", 6, "p6", "s", "u", "", 1, 0, 7, 30⟩ ∧
    (UpdateService ⟨"service0", 6, "p6", "s", "u", "", 1, 0, 7, 30⟩
        ⟨[⟨"service0", 5, "p5", "s", "u", "", 1, 0, 3, 30⟩], []⟩).1.services.length = 1 :=
  have h := UpdateService_replaces_in_place ⟨"service0", 6, "p6", "s", "u", "", 1, 0, 7, 30⟩
    ⟨[⟨"service0", 5, "p5", "s", "u", "", 1, 0, 3, 30⟩], []⟩
    ⟨⟨"service0", 5, "p5", "s", "u", "", 1, 0, 3, 30⟩, by simp, rfl⟩
  ⟨h.2.2.2.2.2.2.1 (by decide) (by decide), h.2.1⟩

/-- C4. For an id with no record, UpdateService, SetServiceState, SetServiceStatus and
SetServiceStartTime each return the error "Service does not exist" and leave the registry
as it was. -/
theorem mutators_fail_when_absent (db : Database) (id : String)
    (h : ∀ r ∈ db.services, r.ID ≠ id) :
    (∀ entry : ServiceEntry, entry.ID = id →
      UpdateService entry db = (db, some "Service does not exist")) ∧
    (∀ state, SetServiceState id state db = (db, some "Service does not exist")) ∧
    (∀ status, SetServiceStatus id status db = (db, some "Service does not exist")) ∧
    (∀ time, SetServiceStartTime id time db = (db, some "Service does not exist")) := by
  have hcount : rowsAffected id db = 0 := (rowsAffected_eq_zero_iff id db).mpr h
  refine ⟨?_, ?_, ?_, ?_⟩
  · intro entry he
    subst he
    have hmap : db.services.map (updateRow entry) = db.services :=
      map_eq_self_of_forall _ _ (fun r hr => updateRow_of_ne entry r (h r hr))
    simp [UpdateService, hcount, hmap, errNotExist]
  · intro state
    have hmap : db.services.map (stateRow id state) = db.services :=
      map_eq_self_of_forall _ _ (fun r hr => stateRow_of_ne id state r (h r hr))
    simp [SetServiceState, hcount, hmap, errNotExist]
  · intro status
    have hmap : db.services.map (statusRow id status) = db.services :=
      map_eq_self_of_forall _ _ (fun r hr => statusRow_of_ne id status r (h r hr))
    simp [SetServiceStatus, hcount, hmap, errNotExist]
  · intro time
    have hmap : db.services.map (startRow id time) = db.services :=
      map_eq_self_of_forall _ _ (fun r hr => startRow_of_ne id time r (h r hr))
    simp [SetServiceStartTime, hcount, hmap, errNotExist]

/-- Witness for C4: the registry holds "service0" only and the calls name "service1". -/
theorem mutators_fail_when_absent_witness :
    SetServiceState "service1" 2 ⟨[⟨"service0", 5, "p5", "s", "u", "", 1, 0, 3, 30⟩], []⟩
      = (⟨[⟨"service0", 5, "p5", "s", "u", "", 1, 0, 3, 30⟩], []⟩,
         some "Service does not exist") :=
  (mutators_fail_when_absent ⟨[⟨"service0", 5, "p5", "s", "u", "", 1, 0, 3, 30⟩], []⟩
    "service1" (by decide)).2.1 2

/-- Counterexample for C5: the registry holds "service0" only, and RemoveService of
"service1" returns nil instead of a not-found error. -/
theorem RemoveService_absent_no_error :
    (∀ r ∈ (⟨[⟨"service0", 5, "p5", "s", "u", "", 1, 0, 3, 30⟩], []⟩ : Database).services,
      r.ID ≠ "service1") ∧
    (RemoveService "service1" ⟨[⟨"service0", 5, "p5", "s", "u", "", 1, 0, 3, 30⟩], []⟩).2
      = none :=
  ⟨by decide, rfl⟩

/-- C5, amended. RemoveService never reports an error; when the registry holds no record
with the id it returns nil and leaves the registry as it was, and in every case no record
with that id is left while the records with other ids and the user bindings stay. -/
theorem RemoveService_absent_is_noop (db : Database) (id : String) :
    (RemoveService id db).2 = none ∧
    ((∀ r ∈ db.services, r.ID ≠ id) → RemoveService id db = (db, none)) ∧
    (∀ r ∈ (RemoveService id db).1.services, r.ID ≠ id) ∧
    (∀ r ∈ db.services, r.ID ≠ id → r ∈ (RemoveService id db).1.services) ∧
    (RemoveService id db).1.users = db.users := by
  refine ⟨rfl, ?_, ?_, ?_, rfl⟩
  · intro h
    have hfilter : db.services.filter (fun r => !hasID id r) = db.services := by
      rw [List.filter_eq_self]
      intro r hr
      simp [hasID, h r hr]
    simp [RemoveService, hfilter]
  · intro r hr
    simp only [RemoveService, List.mem_filter] at hr
    simpa [hasID] using hr.2
  · intro r hr hne
    simp only [RemoveService, List.mem_filter]
    exact ⟨hr, by simp [hasID, hne]⟩

/-- Witness for C5, amended: removing "service1" from a registry that holds "service0". -/
theorem RemoveService_absent_is_noop_witness :
    RemoveService "service1" ⟨[⟨"service0", 5, "p5", "s", "u", "", 1, 0, 3, 30⟩], []⟩
      = (⟨[⟨"service0", 5, "p5", "s", "u", "", 1, 0, 3, 30⟩], []⟩, none) :=
  (RemoveService_absent_is_noop ⟨[⟨"service0", 5, "p5", "s", "u", "", 1, 0, 3, 30⟩], []⟩
    "service1").2.1 (by decide)

/-- The ids of the service records, in table order. -/
theorem map_ID_map_of_ID (f : ServiceEntry → ServiceEntry) (hf : ∀ r, (f r).ID = r.ID)
    (l : List ServiceEntry) : (l.map f).map (fun r => r.ID) = l.map (fun r => r.ID) := by
  induction l with
  | nil => rfl
  | cons a t _ => simp [hf]

theorem AddService_of_present (entry : ServiceEntry) (db : Database)
    (h : ∃ r ∈ db.services, r.ID = entry.ID) :
    AddService entry db = (db, some errServiceKey) := by
  have hany : db.services.any (hasID entry.ID) = true := by
    rw [List.any_eq_true]
    obtain ⟨r, hr, hre⟩ := h
    exact ⟨r, hr, (hasID_iff entry.ID r).mpr hre⟩
  simp [AddService, hany]

theorem AddService_of_absent (entry : ServiceEntry) (db : Database)
    (h : ∀ r ∈ db.services, r.ID ≠ entry.ID) :
    AddService entry db = ({ db with services := db.services ++ [entry] }, none) := by
  have hany : db.services.any (hasID entry.ID) = false := by
    rw [List.any_eq_false]
    intro r hr
    simp [hasID, h r hr]
  simp [AddService, hany]

/-- Every call of a mutator keeps the ids of the service records pairwise distinct. -/
theorem Call.run_preserves_nodup (c : Call) (db : Database)
    (h : (db.services.map (fun r => r.ID)).Nodup) :
    ((c.run db).1.services.map (fun r => r.ID)).Nodup := by
  cases c with
  | addService entry =>
    by_cases hp : ∃ r ∈ db.services, r.ID = entry.ID
    · simpa [Call.run, AddService_of_present entry db hp] using h
    · have ha : ∀ r ∈ db.services, r.ID ≠ entry.ID := fun r hr hre => hp ⟨r, hr, hre⟩
      simp only [Call.run, AddService_of_absent entry db ha, List.map_append, List.map_cons,
        List.map_nil]
      rw [List.nodup_append]
      refine ⟨h, List.nodup_singleton _, ?_⟩
      intro x hx hx'
      rw [List.mem_singleton] at hx'
      rw [List.mem_map] at hx
      obtain ⟨r, hr, hre⟩ := hx
      exact ha r hr (hre.trans hx')
  | updateService entry =>
    simpa [Call.run, UpdateService_services, map_ID_map_of_ID _ (updateRow_ID entry)] using h
  | removeService id =>
    simp only [Call.run, RemoveService]
    exact h.sublist (List.Sublist.map _ (List.filter_sublist _))
  | setServiceStatus id status =>
    simpa [Call.run, SetServiceStatus_services,
      map_ID_map_of_ID _ (statusRow_ID id status)] using h
  | setServiceState id state =>
    simpa [Call.run, SetServiceState_services,
      map_ID_map_of_ID _ (stateRow_ID id state)] using h
  | setServiceStartTime id time =>
    simpa [Call.run, SetServiceStartTime_services,
      map_ID_map_of_ID _ (startRow_ID id time)] using h
  | addUsersService users serviceID =>
    simp only [Call.run, AddUsersService]
    split <;> exact h
  | removeUsersService users serviceID => exact h
  | deleteUsers users => exact h
  | removeAllServices => simp [Call.run, database.removeAllServices]
  | removeAllUsers => exact h

theorem runCalls_preserves_nodup (calls : List Call) (db : Database)
    (h : (db.services.map (fun r => r.ID)).Nodup) :
    ((runCalls calls db).services.map (fun r => r.ID)).Nodup := by
  induction calls generalizing db with
  | nil => exact h
  | cons c t ih => exact ih (c.run db).1 (Call.run_preserves_nodup c db h)

/-- C3. After any sequence of mutator calls on the empty registry the ids of the services
table are pairwise distinct, and so are the ids of whatever GetServices returns: the list
it returns without error (which it does when every row can be read) and the entries it
has collected when a `Scan` fails; and AddService of an id that already has a record fails
with the primary-key error and leaves the registry as it was. -/
theorem service_ids_unique (calls : List Call) :
    (((runCalls calls empty).services.map (fun r => r.ID)).Nodup ∧
      (∀ entries, GetServices (runCalls calls empty) = .ok entries →
        (entries.map (fun r => r.ID)).Nodup) ∧
      (((scanRows (runCalls calls empty).services).1).map (fun r => r.ID)).Nodup ∧
      ((∀ r ∈ (runCalls calls empty).services, readable r = true) →
        ∃ entries, GetServices (runCalls calls empty) = .ok entries ∧
          (entries.map (fun r => r.ID)).Nodup)) ∧
    (∀ entry : ServiceEntry, (∃ r ∈ (runCalls calls empty).services, r.ID = entry.ID) →
      AddService entry (runCalls calls empty)
        = (runCalls calls empty, some "UNIQUE constraint failed: services.id")) := by
  have hnd := runCalls_preserves_nodup calls empty (by simp [empty])
  refine ⟨⟨hnd, ?_, ?_, ?_⟩, ?_⟩
  · intro entries he
    rw [((GetServices_ok_iff _ entries).mp he).1]
    exact hnd
  · exact hnd.sublist (List.Sublist.map _ (scanRows_initial _).sublist)
  · intro hall
    exact ⟨_, GetServices_of_readable _ hall, hnd⟩
  · intro entry h
    simpa [errServiceKey] using AddService_of_present entry _ h

/-- Witness for C3: "service0" is added twice and then stopped; one record is left, and
another AddService of it fails. -/
theorem service_ids_unique_witness :
    (runCalls [.addService ⟨"service0", 5, "p5", "s", "u", "", 1, 0, 3, 30⟩,
               .addService ⟨"service0", 4, "p4", "s", "u", "", 1, 0, 4, 30⟩,
               .setServiceState "service0" 2] empty).services.length = 1 ∧
    (AddService ⟨"service0", 4, "p4", "s", "u", "", 1, 0, 4, 30⟩
      (runCalls [.addService ⟨"service0", 5, "p5", "s", "u", "", 1, 0, 3, 30⟩,
               .addService ⟨"service0", 4, "p4", "s", "u", "", 1, 0, 4, 30⟩,
               .setServiceState "service0" 2] empty)).2
      = some "UNIQUE constraint failed: services.id" :=
  ⟨by decide,
   congrArg Prod.snd
    ((service_ids_unique [.addService ⟨"service0", 5, "p5", "s", "u", "", 1, 0, 3, 30⟩,
               .addService ⟨"service0", 4, "p4", "s", "u", "", 1, 0, 4, 30⟩,
               .setServiceState "service0" 2]).2
      ⟨"service0", 4, "p4", "s", "u", "", 1, 0, 4, 30⟩ (by decide))⟩

end database

end Aos

/-! ## Properties of the launcher -/

namespace Aos

namespace launcher

open database

theorem cleanUsers_services (d : Database) (users : List String) :
    (cleanUsers d users).services = d.services := by
  unfold cleanUsers
  split <;> rfl

theorem cleanUsers_users_mem (d : Database) (users : List String) (row : UsersRow)
    (h : row ∈ (cleanUsers d users).users) : row ∈ d.users := by
  unfold cleanUsers at h
  split at h
  · exact List.mem_of_mem_filter h
  · exact h

theorem foldl_cleanUsers_services (us : List (List String)) (d : Database) :
    (us.foldl cleanUsers d).services = d.services := by
  induction us generalizing d with
  | nil => rfl
  | cons a t ih => rw [List.foldl_cons, ih, cleanUsers_services]

theorem foldl_cleanUsers_users_mem (us : List (List String)) (d : Database) (row : UsersRow)
    (h : row ∈ (us.foldl cleanUsers d).users) : row ∈ d.users := by
  induction us generalizing d with
  | nil => exact h
  | cons a t ih => exact cleanUsers_users_mem d a row (ih (cleanUsers d a) h)

/-- With no service record left, a users list has no service and is deleted. -/
theorem cleanUsers_of_no_services (d : Database) (users : List String)
    (h : d.services = []) : cleanUsers d users = (DeleteUsers users d).1 := by
  have hnil : GetUsersServices users d = .ok [] :=
    (GetUsersServices_eq_nil_iff users d).mpr (by simp [h])
  simp [cleanUsers, hnil]

theorem foldl_cleanUsers_of_no_services (us : List (List String)) (d : Database)
    (h : d.services = []) :
    (us.foldl cleanUsers d).users = d.users.filter (fun r => !us.contains r.users) := by
  induction us generalizing d with
  | nil => simp
  | cons a t ih =>
    rw [List.foldl_cons, cleanUsers_of_no_services d a h, ih _ (by simpa [DeleteUsers] using h)]
    simp only [DeleteUsers, List.filter_filter]
    apply List.filter_congr
    intro r _
    by_cases hra : r.users = a
    · simp [hra]
    · have hra' : ¬ a = r.users := fun e => hra e.symm
      simp [hra, hra']

theorem cleanUsersDB_err (l : Launcher) : (cleanUsersDB l).2 = none := rfl

theorem cleanUsersDB_systemd (l : Launcher) : (cleanUsersDB l).1.systemd = l.systemd := rfl

theorem cleanUsersDB_users (l : Launcher) : (cleanUsersDB l).1.users = l.users := rfl

theorem cleanUsersDB_services (l : Launcher) :
    (cleanUsersDB l).1.db.services = l.db.services := by
  simp [cleanUsersDB, GetUsersList, foldl_cleanUsers_services]

theorem cleanUsersDB_of_no_services (l : Launcher) (h : l.db.services = []) :
    (cleanUsersDB l).1.db.users = [] := by
  simp only [cleanUsersDB, GetUsersList, foldl_cleanUsers_of_no_services _ _ h]
  rw [List.filter_eq_nil_iff]
  intro r hr
  have hmem : r.users ∈ (l.db.users.map fun r => r.users).dedup :=
    List.mem_dedup.mpr (List.mem_map_of_mem _ hr)
  simp [hmem]

theorem removeAllFanOut_systemd (rs : String → Launcher → Launcher × Option String)
    (hrs : ∀ id l, (rs id l).1.systemd = l.systemd)
    (sched : List ServiceEntry → List ServiceEntry) (services : List ServiceEntry)
    (l : Launcher) : (removeAllFanOut rs sched services l).systemd = l.systemd := by
  unfold removeAllFanOut
  generalize sched services = ss
  induction ss generalizing l with
  | nil => rfl
  | cons a t ih => rw [List.foldl_cons, ih, hrs]

/-- The ways `removeAllServices` can end: at its first reading of the registry, at the
Reload, at its second reading of the registry, at the check of what is left, or after the
purge of the users. -/
theorem removeAllServices_eq (rs : String → Launcher → Launcher × Option String)
    (sched : List ServiceEntry → List ServiceEntry) (l : Launcher) :
    removeAllServices rs sched l =
      match GetServices l.db with
      | .error e => (l, some e)
      | .ok _ =>
        match (removeAllFanOut rs sched l.db.services l).systemd.Reload.2 with
        | some e => (removeAllReloaded rs sched l, some e)
        | none =>
          match GetServices (removeAllReloaded rs sched l).db with
          | .error e => (removeAllReloaded rs sched l, some e)
          | .ok _ =>
            if (removeAllReloaded rs sched l).db.services.length != 0 then
              (removeAllReloaded rs sched l, some "Can't remove all services")
            else cleanUsersDB (removeAllReloaded rs sched l) := by
  unfold removeAllServices
  cases h1 : GetServices l.db with
  | error e => rfl
  | ok services =>
    have hs : services = l.db.services := ((GetServices_ok_iff _ _).mp h1).1
    subst hs
    simp only [removeAllReloaded]
    split
    · rfl
    · cases h2 : GetServices
          { removeAllFanOut rs sched l.db.services l with
            systemd := (removeAllFanOut rs sched l.db.services l).systemd.Reload.1 }.db with
      | error e => rfl
      | ok left =>
        have hl := ((GetServices_ok_iff _ _).mp h2).1
        simp only [hl]

/-- C6. When removeAllServices returns success, GetServices returns no record, the users
table has no row (GetUsersList is empty) and the supervisor has received exactly one
Reload during the call, whatever the number of services; the per-service removal is any
function that leaves the supervisor alone. -/
theorem removeAllServices_success (rs : String → Launcher → Launcher × Option String)
    (hrs : ∀ id l, (rs id l).1.systemd = l.systemd)
    (sched : List ServiceEntry → List ServiceEntry) (l : Launcher)
    (h : (removeAllServices rs sched l).2 = none) :
    GetServices (removeAllServices rs sched l).1.db = .ok [] ∧
    (removeAllServices rs sched l).1.db.users = [] ∧
    GetUsersList (removeAllServices rs sched l).1.db = .ok [] ∧
    (removeAllServices rs sched l).1.systemd.reloads = l.systemd.reloads + 1 := by
  rw [removeAllServices_eq] at h ⊢
  have hsys : (removeAllReloaded rs sched l).systemd.reloads = l.systemd.reloads + 1 := by
    simp [removeAllReloaded, Systemd.Reload, removeAllFanOut_systemd rs hrs]
  split at h
  · simp at h
  · split at h
    · simp at h
    · split at h
      · simp at h
      · by_cases hlen : (removeAllReloaded rs sched l).db.services.length = 0
        · have hnil : (removeAllReloaded rs sched l).db.services = [] :=
            List.length_eq_zero.mp hlen
          simp only [hlen, bne_self_eq_false, Bool.false_eq_true, if_false]
          have hu := cleanUsersDB_of_no_services _ hnil
          have hsv : (cleanUsersDB (removeAllReloaded rs sched l)).1.db.services = [] := by
            rw [cleanUsersDB_services, hnil]
          refine ⟨?_, hu, ?_, ?_⟩
          · exact (GetServices_ok_iff _ _).mpr ⟨hsv.symm, by simp [hsv]⟩
          · simp [GetUsersList, hu]
          · rw [cleanUsersDB_systemd, hsys]
        · simp [hlen] at h

/-- C7. Once removeAllServices has read the registry, run the per-service removals and
called Reload, a service record still in the registry makes it return an error and stop
there: the launcher is left as the check found it, user bindings included, cleanUsersDB is
not run; when Reload reported no error and the second reading of the registry succeeded,
the error is "Can't remove all services". -/
theorem removeAllServices_residual (rs : String → Launcher → Launcher × Option String)
    (sched : List ServiceEntry → List ServiceEntry) (l : Launcher)
    (hread : ∃ services, GetServices l.db = .ok services)
    (h : (removeAllReloaded rs sched l).db.services ≠ []) :
    (removeAllServices rs sched l).2 ≠ none ∧
    (removeAllServices rs sched l).1 = removeAllReloaded rs sched l ∧
    ((removeAllFanOut rs sched l.db.services l).systemd.Reload.2 = none →
      (∃ left, GetServices (removeAllReloaded rs sched l).db = .ok left) →
      (removeAllServices rs sched l).2 = some "Can't remove all services") := by
  have hlen : (removeAllReloaded rs sched l).db.services.length ≠ 0 :=
    fun e => h (List.length_eq_zero.mp e)
  obtain ⟨services, h1⟩ := hread
  rw [removeAllServices_eq, h1]
  simp only
  split
  · rename_i e hre
    refine ⟨by simp, rfl, ?_⟩
    intro hnone
    rw [hre] at hnone
    simp at hnone
  · cases h2 : GetServices (removeAllReloaded rs sched l).db with
    | error e =>
      refine ⟨by simp, rfl, ?_⟩
      rintro _ ⟨left, hleft⟩
      cases hleft
    | ok left => simp [hlen]

theorem foldl_RemoveUsersService_services (id : String) (us : List (List String))
    (d : Database) :
    (us.foldl (fun d users => (RemoveUsersService users id d).1) d).services = d.services := by
  induction us generalizing d with
  | nil => rfl
  | cons a t ih => rw [List.foldl_cons, ih]; rfl

theorem foldl_RemoveUsersService_users (id : String) (us : List (List String))
    (d : Database) :
    (us.foldl (fun d users => (RemoveUsersService users id d).1) d).users
      = d.users.filter (fun r => !(r.serviceid == id && us.contains r.users)) := by
  induction us generalizing d with
  | nil => simp
  | cons a t ih =>
    rw [List.foldl_cons, ih]
    simp only [RemoveUsersService, List.filter_filter]
    apply List.filter_congr
    intro r _
    by_cases hid : r.serviceid = id <;> by_cases hra : r.users = a
    · simp [isBinding, hid, hra]
    · have hra' : ¬ a = r.users := fun e => hra e.symm
      simp [isBinding, hid, hra, hra']
    · simp [isBinding, hid, hra]
    · simp [isBinding, hid, hra]

theorem removeBindings_services (id : String) (d : Database) :
    (removeBindings id d).services = d.services := by
  simp [removeBindings, GetUsersList, foldl_RemoveUsersService_services]

/-- The registry calls of `removeBindings` delete exactly the rows of the service id. -/
theorem removeBindings_users (id : String) (d : Database) :
    (removeBindings id d).users = d.users.filter (fun r => !(r.serviceid == id)) := by
  simp only [removeBindings, GetUsersList, foldl_RemoveUsersService_users]
  apply List.filter_congr
  intro r hr
  have hmem : r.users ∈ (d.users.map fun r => r.users).dedup :=
    List.mem_dedup.mpr (List.mem_map_of_mem _ hr)
  simp [hmem]

theorem GetService_ok_ID (id : String) (d : Database) (service : ServiceEntry)
    (h : GetService id d = .ok service) : service.ID = id ∧ service ∈ d.services := by
  unfold GetService at h
  split at h
  · rename_i entry hfind
    split at h
    · cases h
      exact ⟨(hasID_iff id _).mp (List.find?_some hfind), List.mem_of_find?_eq_some hfind⟩
    · cases h
  · cases h

/-- GetService fails for an id without record, or for an id whose record cannot be read. -/
theorem GetService_error_cases (id : String) (d : Database) (e : String)
    (h : GetService id d = .error e) :
    (e = errNotExist ∧ ∀ r ∈ d.services, r.ID ≠ id) ∨
      ∃ r ∈ d.services, r.ID = id ∧ readable r = false ∧ e = errScan r := by
  unfold GetService at h
  split at h
  · rename_i entry hfind
    right
    split at h
    · cases h
    · rename_i hbad
      cases h
      exact ⟨entry, List.mem_of_find?_eq_some hfind, (hasID_iff id _).mp (List.find?_some hfind),
        by simpa using hbad, rfl⟩
  · rename_i hfind
    cases h
    left
    refine ⟨rfl, ?_⟩
    intro r hr hre
    have := List.find?_eq_none.mp hfind r hr
    exact this ((hasID_iff id r).mpr hre)

/-- What `removeService` leaves: the launcher as it was when the id has no record, else the
registry without the records and without the binding rows of the id. -/
theorem removeService_eq (id : String) (l : Launcher) :
    removeService id l = (l, none) ∧ (∀ r ∈ l.db.services, r.ID ≠ id) ∨
    removeService id l =
      ({ l with db := { services := l.db.services.filter (fun r => !hasID id r),
                        users := l.db.users.filter (fun r => !(r.serviceid == id)) } }, none) ∧
      (∃ r ∈ l.db.services, r.ID = id) := by
  cases hg : l.db.services.any (hasID id) with
  | false =>
    left
    refine ⟨by simp [removeService, hg], ?_⟩
    intro r hr
    rw [List.any_eq_false] at hg
    simpa [hasID] using hg r hr
  | true =>
    right
    rw [List.any_eq_true] at hg
    obtain ⟨r, hr, hid⟩ := hg
    refine ⟨?_, r, hr, (hasID_iff id r).mp hid⟩
    have hany : l.db.services.any (hasID id) = true := List.any_eq_true.mpr ⟨r, hr, hid⟩
    simp only [removeService, hany, RemoveService, if_true]
    congr 2
    rw [show removeBindings id ⟨l.db.services.filter (fun r => !hasID id r), l.db.users⟩
        = ⟨(removeBindings id ⟨l.db.services.filter (fun r => !hasID id r),
              l.db.users⟩).services,
           (removeBindings id ⟨l.db.services.filter (fun r => !hasID id r),
              l.db.users⟩).users⟩ from rfl]
    rw [removeBindings_services, removeBindings_users]

theorem removeService_systemd (id : String) (l : Launcher) :
    (removeService id l).1.systemd = l.systemd := by
  rcases removeService_eq id l with ⟨h, _⟩ | ⟨h, _⟩ <;> rw [h]

theorem removeService_users (id : String) (l : Launcher) :
    (removeService id l).1.users = l.users := by
  rcases removeService_eq id l with ⟨h, _⟩ | ⟨h, _⟩ <;> rw [h]

/-- Witness for C6: two services of two users lists are removed by `removeService`. -/
theorem removeAllServices_success_witness :
    (removeAllServices removeService id
      ⟨⟨[⟨"service0", 0, "/b0", "s0", "u", "", 1, 0, 5, 30⟩,
         ⟨"service1", 0, "/b1", "s1", "u", "", 2, 0, 6, 30⟩],
        [⟨["user0"], "service0"⟩, ⟨["user1"], "service1"⟩]⟩,
       ["user0"], ⟨0, none⟩, 30⟩).1.systemd.reloads = 0 + 1 :=
  (removeAllServices_success removeService removeService_systemd id
    ⟨⟨[⟨"service0", 0, "/b0", "s0", "u", "", 1, 0, 5, 30⟩,
       ⟨"service1", 0, "/b1", "s1", "u", "", 2, 0, 6, 30⟩],
      [⟨["user0"], "service0"⟩, ⟨["user1"], "service1"⟩]⟩,
     ["user0"], ⟨0, none⟩, 30⟩ (by rfl)).2.2.2

/-- Witness for C7: the removal of every service fails, so "service0" is still there. -/
theorem removeAllServices_residual_witness :
    (removeAllServices (fun _ l => (l, some "can't stop service")) id
      ⟨⟨[⟨"service0", 0, "/b0", "s0", "u", "", 1, 0, 5, 30⟩], [⟨["user0"], "service0"⟩]⟩,
       ["user0"], ⟨0, none⟩, 30⟩).2 = some "Can't remove all services" :=
  (removeAllServices_residual (fun _ l => (l, some "can't stop service")) id
    ⟨⟨[⟨"service0", 0, "/b0", "s0", "u", "", 1, 0, 5, 30⟩], [⟨["user0"], "service0"⟩]⟩,
     ["user0"], ⟨0, none⟩, 30⟩ ⟨_, rfl⟩ (by decide)).2.2 rfl ⟨_, rfl⟩

/-! ### The sweep: steps 3 to 5 -/

theorem rebindRow_ID (now : Int) (users : List String) (rows : List UsersRow)
    (ss : List ServiceEntry) (r : ServiceEntry) :
    (rebindRow now users rows ss r).ID = r.ID := by
  unfold rebindRow
  split <;> split <;> rfl

theorem rebindRow_nil (now : Int) (users : List String) (rows : List UsersRow)
    (r : ServiceEntry) : rebindRow now users rows [] r = r := by
  simp [rebindRow]

theorem rebindRow_cons (now : Int) (users : List String) (rows : List UsersRow)
    (s : ServiceEntry) (ss : List ServiceEntry) (r : ServiceEntry) :
    rebindRow now users rows ss (rebindRow now users rows [s] r)
      = rebindRow now users rows (s :: ss) r := by
  cases r with
  | mk ID Version Path ServiceName UserName Permissions State Status StartAt TTL =>
    simp only [rebindRow, List.any_cons, List.any_nil, Bool.or_false]
    by_cases hb : rows.any (isBinding users ID) = true
    · by_cases h1 : (s.ID == ID && s.State == stateStopped) = true
      · simp [hb, h1]
      · simp [hb, h1]
    · by_cases h1 : (s.ID == ID && s.State == stateRunning) = true
      · simp [hb, h1]
      · simp [hb, h1]

theorem Database_ext (a b : Database) (hs : a.services = b.services)
    (hu : a.users = b.users) : a = b := by
  cases a; cases b; simp_all

theorem launcher_db_eta (l : Launcher) :
    ({ l with db := ⟨l.db.services, l.db.users⟩ } : Launcher) = l := rfl

/-- One step of the rebinding, as a row update of the services table. -/
theorem rebindService_eq (now : Int) (l : Launcher) (s : ServiceEntry) :
    rebindService now l s
      = { l with db := ⟨l.db.services.map (rebindRow now l.users l.db.users [s]),
                        l.db.users⟩ } := by
  have hID : ∀ r : ServiceEntry, r.ID = s.ID →
      l.db.users.any (isBinding l.users r.ID) = l.db.users.any (isBinding l.users s.ID) :=
    fun r hr => by rw [hr]
  unfold rebindService IsUsersService
  cases hb : l.db.users.any (isBinding l.users s.ID)
  · simp only
    by_cases hs : s.State = stateRunning
    · simp only [hs, if_true, stopService]
      congr 1
      refine Database_ext _ _ ?_ (SetServiceState_users _ _ _)
      rw [SetServiceState_services]
      apply List.map_congr_left
      intro r _
      by_cases hr : r.ID = s.ID
      · simp [rebindRow, stateRow, hasID, hr, hb, hs]
      · have hr' : ¬ s.ID = r.ID := fun e => hr e.symm
        simp [rebindRow, stateRow, hasID, hr, hr']
    · simp only [hs, if_false]
      conv_lhs => rw [← launcher_db_eta l]
      congr 2
      symm
      apply map_eq_self_of_forall
      intro r _
      by_cases hr : r.ID = s.ID
      · simp [rebindRow, hID r hr, hb, hs]
      · have hr' : ¬ s.ID = r.ID := fun e => hr e.symm
        simp [rebindRow, hr']
  · simp only
    by_cases hs : s.State = stateStopped
    · simp only [hs, if_true, startService]
      congr 1
      refine Database_ext _ _ ?_
        ((SetServiceStartTime_users _ _ _).trans (SetServiceState_users _ _ _))
      rw [SetServiceStartTime_services, SetServiceState_services, List.map_map]
      apply List.map_congr_left
      intro r _
      by_cases hr : r.ID = s.ID
      · simp [rebindRow, stateRow, startRow, hasID, hr, hb, hs]
      · have hr' : ¬ s.ID = r.ID := fun e => hr e.symm
        simp [rebindRow, stateRow, startRow, hasID, hr, hr']
    · simp only [hs, if_false]
      conv_lhs => rw [← launcher_db_eta l]
      congr 2
      symm
      apply map_eq_self_of_forall
      intro r _
      by_cases hr : r.ID = s.ID
      · simp [rebindRow, hID r hr, hb, hs]
      · have hr' : ¬ s.ID = r.ID := fun e => hr e.symm
        simp [rebindRow, hr']

/-- Steps 3 to 5 over a whole snapshot, as a row update of the services table. -/
theorem foldl_rebindService (now : Int) (ss : List ServiceEntry) (l : Launcher) :
    ss.foldl (rebindService now) l
      = { l with db := ⟨l.db.services.map (rebindRow now l.users l.db.users ss),
                        l.db.users⟩ } := by
  induction ss generalizing l with
  | nil =>
    simp only [List.foldl_nil]
    conv_lhs => rw [← launcher_db_eta l]
    congr 2
    symm
    exact map_eq_self_of_forall _ _ (fun r _ => rebindRow_nil now _ _ r)
  | cons s t ih =>
    rw [List.foldl_cons, rebindService_eq, ih]
    simp only [List.map_map]
    congr 2
    apply List.map_congr_left
    intro r _
    exact rebindRow_cons now _ _ s t r

/-! ### The sweep: step 6 -/

theorem foldl_removeService_systemd (ss : List ServiceEntry) (l : Launcher) :
    (ss.foldl (fun l0 s => (removeService s.ID l0).1) l).systemd = l.systemd := by
  induction ss generalizing l with
  | nil => rfl
  | cons a t ih => rw [List.foldl_cons, ih, removeService_systemd]

theorem foldl_removeService_users (ss : List ServiceEntry) (l : Launcher) :
    (ss.foldl (fun l0 s => (removeService s.ID l0).1) l).users = l.users := by
  induction ss generalizing l with
  | nil => rfl
  | cons a t ih => rw [List.foldl_cons, ih, removeService_users]

theorem foldl_removeService_nil_of_fresh (now : Int) (ss : List ServiceEntry) (l : Launcher)
    (h : ∀ s ∈ ss, expired now s = false) :
    (ss.filter (expired now)).foldl (fun l0 s => (removeService s.ID l0).1) l = l := by
  have hnil : ss.filter (expired now) = [] := by
    rw [List.filter_eq_nil_iff]
    intro s hs
    simp [h s hs]
  rw [hnil]; rfl

/-! ### The sweep: step 7 -/

theorem cleanUsers_keeps (d : Database) (a : List String) (row : UsersRow)
    (hrow : row ∈ d.users) (hs : ∃ s ∈ d.services, s.ID = row.serviceid) :
    row ∈ (cleanUsers d a).users := by
  obtain ⟨s, hs, hsid⟩ := hs
  unfold cleanUsers
  split
  · rename_i hget
    by_cases ha : row.users = a
    · exfalso
      have hnone := (GetUsersServices_eq_nil_iff a d).mp hget s hs
      rw [List.any_eq_false] at hnone
      apply hnone row hrow
      rw [isBinding_iff]
      exact ⟨ha, hsid.symm⟩
    · simp only [DeleteUsers, List.mem_filter]
      exact ⟨hrow, by simp [ha]⟩
  · exact hrow

theorem foldl_cleanUsers_keeps (us : List (List String)) (d : Database) (row : UsersRow)
    (hrow : row ∈ d.users) (hs : ∃ s ∈ d.services, s.ID = row.serviceid) :
    row ∈ (us.foldl cleanUsers d).users := by
  induction us generalizing d with
  | nil => exact hrow
  | cons a t ih =>
    rw [List.foldl_cons]
    exact ih _ (cleanUsers_keeps d a row hrow hs) (by rw [cleanUsers_services]; exact hs)

theorem cleanUsersDB_users_mem (l : Launcher) (row : UsersRow)
    (h : row ∈ (cleanUsersDB l).1.db.users) : row ∈ l.db.users :=
  foldl_cleanUsers_users_mem _ _ row (by simpa [cleanUsersDB, GetUsersList] using h)

theorem cleanUsersDB_keeps (l : Launcher) (row : UsersRow) (hrow : row ∈ l.db.users)
    (hs : ∃ s ∈ l.db.services, s.ID = row.serviceid) :
    row ∈ (cleanUsersDB l).1.db.users := by
  simp only [cleanUsersDB, GetUsersList]
  exact foldl_cleanUsers_keeps _ l.db row hrow hs

/-! ### The sweep as a whole -/

theorem IsUsersService_true_iff (u : List String) (id : String) (d : Database) :
    IsUsersService u id d = .ok true ↔ ∃ row ∈ d.users, row.users = u ∧ row.serviceid = id := by
  simp [IsUsersService, isBinding]

theorem IsUsersService_false_iff (u : List String) (id : String) (d : Database) :
    IsUsersService u id d = .ok false ↔ ∀ row ∈ d.users, row.users = u → row.serviceid ≠ id := by
  simp [IsUsersService, isBinding]

/-- SetUsers is the purge of step 7 after step 6 run on the rebound launcher. -/
theorem SetUsers_eq (users : List String) (now : Int) (l : Launcher) :
    SetUsers users now l
      = cleanUsersDB ((l.db.services.filter (expired now)).foldl
          (fun l0 s => (removeService s.ID l0).1) (rebound users now l)) := by
  simp only [SetUsers, sweep, GetServices, foldl_rebindService, rebound]

theorem rebound_services_of_fresh (users : List String) (now : Int) (l : Launcher)
    (h : ∀ s ∈ l.db.services, expired now s = false) :
    (rebound users now l).db.services
      = l.db.services.map (rebindRow now users l.db.users l.db.services) := by
  have hall : (l.db.services.filter fun s => !expired now s) = l.db.services := by
    rw [List.filter_eq_self]
    intro s hs
    simp [h s hs]
  simp only [rebound, hall]

/-- The launcher after a sweep in which no record is reclaimed. -/
theorem SetUsers_eq_of_fresh (users : List String) (now : Int) (l : Launcher)
    (h : ∀ s ∈ l.db.services, expired now s = false) :
    SetUsers users now l = cleanUsersDB (rebound users now l) := by
  rw [SetUsers_eq, foldl_removeService_nil_of_fresh now _ _ h]

/-- After a sweep without reclaimed record, a record id is bound to the new active user set
exactly when it was before. -/
theorem SetUsers_binding_of_fresh (users : List String) (now : Int) (l : Launcher)
    (h : ∀ s ∈ l.db.services, expired now s = false) (r : ServiceEntry)
    (hr : r ∈ l.db.services) :
    IsUsersService users r.ID (SetUsers users now l).1.db = IsUsersService users r.ID l.db := by
  rw [SetUsers_eq_of_fresh users now l h]
  have hsvc : ∃ s ∈ (rebound users now l).db.services, s.ID = r.ID :=
    ⟨rebindRow now users l.db.users _ r, List.mem_map_of_mem _ hr, rebindRow_ID _ _ _ _ _⟩
  cases hb : l.db.users.any (isBinding users r.ID)
  · have hold : IsUsersService users r.ID l.db = .ok false := by simp [IsUsersService, hb]
    rw [hold, IsUsersService_false_iff]
    intro row hrow
    exact (IsUsersService_false_iff users r.ID l.db).mp hold row
      (cleanUsersDB_users_mem (rebound users now l) row hrow)
  · have hold : IsUsersService users r.ID l.db = .ok true := by simp [IsUsersService, hb]
    rw [hold, IsUsersService_true_iff]
    obtain ⟨row, hrow, hru, hrid⟩ := (IsUsersService_true_iff users r.ID l.db).mp hold
    exact ⟨row, cleanUsersDB_keeps _ row hrow (by rw [hrid]; exact hsvc), hru, hrid⟩

/-- The sweep stops Running records and starts Stopped ones and leaves a record in any other
state as it is: a record in state Error bound to "user1" is not started when "user1" becomes
the active user set.  No request served by the launcher leaves such a record in the
registry, which is why the records are taken Running or Stopped below. -/
theorem SetUsers_error_state_not_started :
    expired 200 ⟨"service0", 0, "/b0", "s0", "u", "", stateError, 1, 101, 30⟩ = false ∧
    IsUsersService ["user1"] "service0"
      (SetUsers ["user1"] 200
        ⟨⟨[⟨"service0", 0, "/b0", "s0", "u", "", stateError, 1, 101, 30⟩],
          [⟨["user1"], "service0"⟩]⟩, ["user0"], ⟨0, none⟩, 30⟩).1.db = .ok true ∧
    (SetUsers ["user1"] 200
        ⟨⟨[⟨"service0", 0, "/b0", "s0", "u", "", stateError, 1, 101, 30⟩],
          [⟨["user1"], "service0"⟩]⟩, ["user0"], ⟨0, none⟩, 30⟩).1.db.services
      = [⟨"service0", 0, "/b0", "s0", "u", "", stateError, 1, 101, 30⟩] ∧
    stateError ≠ stateRunning :=
  ⟨by decide, by rfl, by decide, by decide⟩

/-- The sweep on any registry, with no record older than its TTL: it succeeds, no record is
deleted (each record stays in place with every field but state and start time), every
Running record is bound to the new active user set, and every record that was Running or
Stopped before is Running if bound to the new active user set and Stopped if not. -/
theorem SetUsers_rebinds (users : List String) (now : Int) (l : Launcher)
    (hfresh : ∀ s ∈ l.db.services, ¬ (now - s.StartAt > (s.TTL : Int) * day)) :
    (SetUsers users now l).2 = none ∧
    (SetUsers users now l).1.users = users ∧
    (SetUsers users now l).1.db.services.length = l.db.services.length ∧
    (∀ (i : Nat) (r : ServiceEntry), l.db.services[i]? = some r →
      ∃ r', (SetUsers users now l).1.db.services[i]? = some r' ∧
        r' = { r with State := r'.State, StartAt := r'.StartAt } ∧
        ((r.State = stateRunning ∨ r.State = stateStopped) →
          (IsUsersService users r.ID (SetUsers users now l).1.db = .ok true ∧
              r'.State = stateRunning) ∨
          (IsUsersService users r.ID (SetUsers users now l).1.db = .ok false ∧
              r'.State = stateStopped))) ∧
    (∀ r' ∈ (SetUsers users now l).1.db.services, r'.State = stateRunning →
      IsUsersService users r'.ID (SetUsers users now l).1.db = .ok true) := by
  have hf : ∀ s ∈ l.db.services, expired now s = false := by
    intro s hs
    have := hfresh s hs
    simpa [expired] using this
  have hsvc : (SetUsers users now l).1.db.services
      = l.db.services.map (rebindRow now users l.db.users l.db.services) := by
    rw [SetUsers_eq_of_fresh users now l hf, cleanUsersDB_services,
      rebound_services_of_fresh users now l hf]
  have hstate : ∀ r ∈ l.db.services,
      (l.db.users.any (isBinding users r.ID) = true →
        (r.State = stateRunning ∨ r.State = stateStopped) →
        (rebindRow now users l.db.users l.db.services r).State = stateRunning) ∧
      (l.db.users.any (isBinding users r.ID) = false →
        ((r.State = stateRunning ∨ r.State = stateStopped) →
          (rebindRow now users l.db.users l.db.services r).State = stateStopped) ∧
        (rebindRow now users l.db.users l.db.services r).State ≠ stateRunning) := by
    intro r hr
    constructor
    · intro hb hrs
      by_cases hany : l.db.services.any (fun s => s.ID == r.ID && s.State == stateStopped) = true
      · simp [rebindRow, hb, hany]
      · simp only [rebindRow, hb, hany, if_true]
        rcases hrs with h1 | h1
        · simpa using h1
        · exfalso
          apply hany
          rw [List.any_eq_true]
          exact ⟨r, hr, by simp [h1]⟩
    · intro hb
      by_cases hany : l.db.services.any (fun s => s.ID == r.ID && s.State == stateRunning) = true
      · have hsr : stateStopped ≠ stateRunning := by decide
        constructor
        · intro _
          simp [rebindRow, hb, hany]
        · simp only [rebindRow, hb, hany, if_true, Bool.false_eq_true, if_false]
          exact hsr
      · have hnr : r.State ≠ stateRunning := by
          intro h1
          apply hany
          rw [List.any_eq_true]
          exact ⟨r, hr, by simp [h1]⟩
        simp only [rebindRow, hb, hany]
        refine ⟨fun hrs => ?_, by simpa using hnr⟩
        rcases hrs with h1 | h1
        · exact absurd h1 hnr
        · simpa using h1
  refine ⟨?_, ?_, ?_, ?_, ?_⟩
  · rw [SetUsers_eq]; rfl
  · rw [SetUsers_eq, cleanUsersDB_users, foldl_removeService_users]; rfl
  · rw [hsvc, List.length_map]
  · intro i r hir
    have hr : r ∈ l.db.services := List.getElem?_mem hir
    refine ⟨rebindRow now users l.db.users l.db.services r, ?_, ?_, ?_⟩
    · rw [hsvc, List.getElem?_map, hir]; rfl
    · unfold rebindRow
      split <;> split <;> rfl
    · intro hrs
      rw [SetUsers_binding_of_fresh users now l hf r hr]
      cases hb : l.db.users.any (isBinding users r.ID)
      · right
        exact ⟨by simp [IsUsersService, hb], ((hstate r hr).2 hb).1 hrs⟩
      · left
        exact ⟨by simp [IsUsersService, hb], (hstate r hr).1 hb hrs⟩
  · intro r' hr' hrun
    rw [hsvc, List.mem_map] at hr'
    obtain ⟨r, hr, rfl⟩ := hr'
    rw [rebindRow_ID, SetUsers_binding_of_fresh users now l hf r hr]
    cases hb : l.db.users.any (isBinding users r.ID)
    · exact absurd hrun ((hstate r hr).2 hb).2
    · simp [IsUsersService, hb]

/-- Example: "service0" of "user0" is Running, "service1" of "user1" is Stopped; when
"user1" becomes the active user set both records stay, "service0" is stopped and "service1"
is started. -/
theorem SetUsers_rebinds_witness :
    (SetUsers ["user1"] 200
        ⟨⟨[⟨"service0", 0, "/b0", "s0", "u", "", stateRunning, 0, 101, 30⟩,
           ⟨"service1", 0, "/b1", "s1", "u", "", stateStopped, 0, 102, 30⟩],
          [⟨["user0"], "service0"⟩, ⟨["user1"], "service1"⟩]⟩,
         ["user0"], ⟨0, none⟩, 30⟩).1.db.services.length = 2 ∧
    (SetUsers ["user1"] 200
        ⟨⟨[⟨"service0", 0, "/b0", "s0", "u", "", stateRunning, 0, 101, 30⟩,
           ⟨"service1", 0, "/b1", "s1", "u", "", stateStopped, 0, 102, 30⟩],
          [⟨["user0"], "service0"⟩, ⟨["user1"], "service1"⟩]⟩,
         ["user0"], ⟨0, none⟩, 30⟩).1.db.services.map (fun r => r.State)
      = [stateStopped, stateRunning] :=
  ⟨(SetUsers_rebinds ["user1"] 200
      ⟨⟨[⟨"service0", 0, "/b0", "s0", "u", "", stateRunning, 0, 101, 30⟩,
         ⟨"service1", 0, "/b1", "s1", "u", "", stateStopped, 0, 102, 30⟩],
        [⟨["user0"], "service0"⟩, ⟨["user1"], "service1"⟩]⟩,
       ["user0"], ⟨0, none⟩, 30⟩ (by decide)).2.2.1,
   by decide⟩

/-! ### The sweep on the registry the launcher has built -/

end launcher

end Aos

/-! ## Properties of the user bindings -/

namespace Aos

namespace database

theorem AddUsersService_of_present (users : List String) (id : String) (db : Database)
    (h : db.users.any (isBinding users id) = true) :
    AddUsersService users id db = (db, some errUsersKey) := by
  simp [AddUsersService, h]

theorem AddUsersService_of_absent (users : List String) (id : String) (db : Database)
    (h : db.users.any (isBinding users id) = false) :
    AddUsersService users id db
      = ({ db with users := db.users ++ [{ users := users, serviceid := id }] }, none) := by
  simp [AddUsersService, h]

/-- A successful AddUsersService found no row for the pair. -/
theorem AddUsersService_ok_absent (users : List String) (id : String) (db : Database)
    (h : (AddUsersService users id db).2 = none) :
    db.users.any (isBinding users id) = false := by
  cases hb : db.users.any (isBinding users id)
  · rfl
  · rw [AddUsersService_of_present users id db hb] at h
    cases h

theorem AddUsersService_services (users : List String) (id : String) (db : Database) :
    (AddUsersService users id db).1.services = db.services := by
  unfold AddUsersService
  split <;> rfl

theorem AddService_users (entry : ServiceEntry) (db : Database) :
    (AddService entry db).1.users = db.users := by
  unfold AddService
  split <;> rfl

/-- Every call of a mutator keeps the rows of the users table pairwise distinct. -/
theorem Call.run_preserves_users_nodup (c : Call) (db : Database) (h : db.users.Nodup) :
    (c.run db).1.users.Nodup := by
  cases c with
  | addService entry => simpa [Call.run, AddService_users] using h
  | updateService entry => simpa [Call.run, UpdateService_users] using h
  | removeService id => exact h
  | setServiceStatus id status => simpa [Call.run, SetServiceStatus_users] using h
  | setServiceState id state => simpa [Call.run, SetServiceState_users] using h
  | setServiceStartTime id time => simpa [Call.run, SetServiceStartTime_users] using h
  | addUsersService users serviceID =>
    cases hb : db.users.any (isBinding users serviceID)
    · simp only [Call.run, AddUsersService_of_absent users serviceID db hb]
      rw [List.nodup_append]
      refine ⟨h, List.nodup_singleton _, ?_⟩
      intro row hrow hrow'
      rw [List.mem_singleton] at hrow'
      rw [List.any_eq_false] at hb
      apply hb row hrow
      rw [hrow', isBinding_iff]
      exact ⟨rfl, rfl⟩
    · simpa [Call.run, AddUsersService_of_present users serviceID db hb] using h
  | removeUsersService users serviceID =>
    simp only [Call.run, RemoveUsersService]
    exact h.sublist (List.filter_sublist _)
  | deleteUsers users =>
    simp only [Call.run, DeleteUsers]
    exact h.sublist (List.filter_sublist _)
  | removeAllServices => exact h
  | removeAllUsers => simp [Call.run, database.removeAllUsers]

theorem runCalls_preserves_users_nodup (calls : List Call) (db : Database)
    (h : db.users.Nodup) : (runCalls calls db).users.Nodup := by
  induction calls generalizing db with
  | nil => exact h
  | cons c t ih => exact ih (c.run db).1 (Call.run_preserves_users_nodup c db h)

/-- Counterexample for C11: after AddUsersService of "service0" for the users list "user0"
and then for the users list "user1", the service id belongs to both. -/
theorem service_in_two_users_lists :
    (["user0"] : List String) ≠ ["user1"] ∧
    IsUsersService ["user0"] "service0"
      (runCalls [.addUsersService ["user0"] "service0",
                 .addUsersService ["user1"] "service0"] empty) = .ok true ∧
    IsUsersService ["user1"] "service0"
      (runCalls [.addUsersService ["user0"] "service0",
                 .addUsersService ["user1"] "service0"] empty) = .ok true :=
  ⟨by decide, rfl, rfl⟩

/-- C11, amended. After any sequence of mutator calls on the empty registry the users table
never holds the same pair of users list and service id twice: its rows are pairwise
distinct, and a row is told from every other by its users list or by its service id. -/
theorem users_rows_unique (calls : List Call) :
    (runCalls calls empty).users.Nodup ∧
    ∀ (i j : Nat) (a b : UsersRow), (runCalls calls empty).users[i]? = some a →
      (runCalls calls empty).users[j]? = some b → i ≠ j →
      a.users ≠ b.users ∨ a.serviceid ≠ b.serviceid := by
  have hnd : (runCalls calls empty).users.Nodup :=
    runCalls_preserves_users_nodup calls empty (by simp [empty])
  refine ⟨hnd, ?_⟩
  intro i j a b hi hj hij
  by_contra hcon
  have hab : a = b := by
    cases a; cases b
    simp only [not_or, not_not] at hcon
    simp only [UsersRow.mk.injEq]
    exact hcon
  obtain ⟨hi', hia⟩ := List.getElem?_eq_some.mp hi
  obtain ⟨hj', hjb⟩ := List.getElem?_eq_some.mp hj
  exact hij ((List.Nodup.getElem_inj_iff hnd).mp (hia.trans (hab.trans hjb.symm)))

/-- Witness for C11, amended: a second AddUsersService of the same pair adds no row. -/
theorem users_rows_unique_witness :
    (runCalls [.addUsersService ["user0"] "service0",
               .addUsersService ["user0"] "service0",
               .addUsersService ["user1"] "service0"] empty).users
      = [⟨["user0"], "service0"⟩, ⟨["user1"], "service0"⟩] ∧
    (runCalls [.addUsersService ["user0"] "service0",
               .addUsersService ["user0"] "service0",
               .addUsersService ["user1"] "service0"] empty).users.Nodup :=
  ⟨by decide,
   (users_rows_unique [.addUsersService ["user0"] "service0",
               .addUsersService ["user0"] "service0",
               .addUsersService ["user1"] "service0"]).1⟩

/-- Counterexample for C12: "service0" is bound to the users list "user0", "user1"; asked
with the same users in the other order, IsUsersService and GetUsersServices answer
differently. -/
theorem users_order_matters :
    (["user1", "user0"] : List String).Perm ["user0", "user1"] ∧
    IsUsersService ["user0", "user1"] "service0"
      (AddUsersService ["user0", "user1"] "service0"
        ⟨[⟨"service0", 0, "/b0", "s0", "u", "", 1, 0, 5, 30⟩], []⟩).1 = .ok true ∧
    IsUsersService ["user1", "user0"] "service0"
      (AddUsersService ["user0", "user1"] "service0"
        ⟨[⟨"service0", 0, "/b0", "s0", "u", "", 1, 0, 5, 30⟩], []⟩).1 = .ok false ∧
    GetUsersServices ["user0", "user1"]
      (AddUsersService ["user0", "user1"] "service0"
        ⟨[⟨"service0", 0, "/b0", "s0", "u", "", 1, 0, 5, 30⟩], []⟩).1
      = .ok [⟨"service0", 0, "/b0", "s0", "u", "", 1, 0, 5, 30⟩] ∧
    GetUsersServices ["user1", "user0"]
      (AddUsersService ["user0", "user1"] "service0"
        ⟨[⟨"service0", 0, "/b0", "s0", "u", "", 1, 0, 5, 30⟩], []⟩).1 = .ok [] :=
  ⟨List.Perm.swap _ _ _, rfl, rfl, rfl, rfl⟩

/-- C12, amended. A user binding is keyed by the users list as given, order included: a
successful AddUsersService makes IsUsersService true for that list, and for every other
users list, a reordering of it included, IsUsersService and GetUsersServices answer after
the call what they answered before it. -/
theorem AddUsersService_keyed_by_list (users other : List String) (id : String)
    (db : Database) (hne : other ≠ users) :
    ((AddUsersService users id db).2 = none →
      IsUsersService users id (AddUsersService users id db).1 = .ok true) ∧
    (∀ id', IsUsersService other id' (AddUsersService users id db).1
      = IsUsersService other id' db) ∧
    GetUsersServices other (AddUsersService users id db).1 = GetUsersServices other db := by
  have hne' : ¬ users = other := fun e => hne e.symm
  cases hb : db.users.any (isBinding users id)
  · rw [AddUsersService_of_absent users id db hb]
    refine ⟨fun _ => ?_, fun id' => ?_, ?_⟩
    · simp [IsUsersService, isBinding]
    · simp [IsUsersService, isBinding, hne']
    · simp [GetUsersServices, List.filter_append, hne']
  · rw [AddUsersService_of_present users id db hb]
    exact ⟨fun h => (by cases h), fun _ => rfl, rfl⟩

/-- Witness for C12, amended: binding "service0" to "user0", "user1" leaves the answers for
"user1", "user0" as they were. -/
theorem AddUsersService_keyed_by_list_witness :
    GetUsersServices ["user1", "user0"]
      (AddUsersService ["user0", "user1"] "service0"
        ⟨[⟨"service0", 0, "/b0", "s0", "u", "", 1, 0, 5, 30⟩], []⟩).1
      = GetUsersServices ["user1", "user0"]
          ⟨[⟨"service0", 0, "/b0", "s0", "u", "", 1, 0, 5, 30⟩], []⟩ :=
  (AddUsersService_keyed_by_list ["user0", "user1"] ["user1", "user0"] "service0"
    ⟨[⟨"service0", 0, "/b0", "s0", "u", "", 1, 0, 5, 30⟩], []⟩ (by decide)).2.2

/-- C13. After a successful AddUsersService the pair is bound (and was not before); after
the following RemoveUsersService, which succeeds, it is not bound again, IsUsersService
answers for every other pair as before the two calls, and the registry is the one the two
calls started from. -/
theorem AddUsersService_then_RemoveUsersService (users : List String) (id : String)
    (db : Database) (h : (AddUsersService users id db).2 = none) :
    IsUsersService users id db = .ok false ∧
    IsUsersService users id (AddUsersService users id db).1 = .ok true ∧
    (RemoveUsersService users id (AddUsersService users id db).1).2 = none ∧
    IsUsersService users id
      (RemoveUsersService users id (AddUsersService users id db).1).1 = .ok false ∧
    (∀ (other : List String) (id' : String), ¬ (other = users ∧ id' = id) →
      IsUsersService other id'
        (RemoveUsersService users id (AddUsersService users id db).1).1
        = IsUsersService other id' db) ∧
    (RemoveUsersService users id (AddUsersService users id db).1).1 = db := by
  have hb := AddUsersService_ok_absent users id db h
  have hfilter : db.users.filter (fun r => !isBinding users id r) = db.users := by
    rw [List.filter_eq_self]
    intro r hr
    rw [List.any_eq_false] at hb
    simpa using hb r hr
  have hback : (RemoveUsersService users id (AddUsersService users id db).1).1 = db := by
    rw [AddUsersService_of_absent users id db hb]
    apply launcher.Database_ext
    · rfl
    · show (db.users ++ [(⟨users, id⟩ : UsersRow)]).filter (fun r => !isBinding users id r)
        = db.users
      rw [List.filter_append, hfilter]
      simp [isBinding]
  refine ⟨?_, ?_, rfl, ?_, ?_, hback⟩
  · simp [IsUsersService, hb]
  · rw [AddUsersService_of_absent users id db hb]
    simp [IsUsersService, isBinding]
  · rw [hback]
    simp [IsUsersService, hb]
  · intro other id' _
    rw [hback]

/-- Witness for C13: "service0" is bound to "user0" next to a binding of "service1". -/
theorem AddUsersService_then_RemoveUsersService_witness :
    IsUsersService ["user0"] "service0"
      (AddUsersService ["user0"] "service0" ⟨[], [⟨["user0"], "service1"⟩]⟩).1 = .ok true ∧
    IsUsersService ["user0"] "service0"
      (RemoveUsersService ["user0"] "service0"
        (AddUsersService ["user0"] "service0" ⟨[], [⟨["user0"], "service1"⟩]⟩).1).1
      = .ok false :=
  have h := AddUsersService_then_RemoveUsersService ["user0"] "service0"
    ⟨[], [⟨["user0"], "service1"⟩]⟩ (by rfl)
  ⟨h.2.1, h.2.2.2.1⟩

/-! ### Queries -/

theorem find?_hasID_of_nodup (id : String) (l : List ServiceEntry)
    (hnd : (l.map (fun r => r.ID)).Nodup) (r : ServiceEntry) (hr : r ∈ l) (hid : r.ID = id) :
    l.find? (hasID id) = some r := by
  induction l with
  | nil => simp at hr
  | cons a t ih =>
    rw [List.map_cons, List.nodup_cons] at hnd
    rcases List.mem_cons.mp hr with rfl | hrt
    · simp [List.find?_cons, hasID, hid]
    · have hne : a.ID ≠ id := by
        intro e
        apply hnd.1
        rw [e, ← hid]
        exact List.mem_map_of_mem _ hrt
      have hfalse : hasID id a = false := by simp [hasID, hne]
      rw [List.find?_cons, hfalse]
      exact ih hnd.2 hrt

theorem find?_hasID_append_of_absent (id : String) (l : List ServiceEntry) (e : ServiceEntry)
    (h : ∀ r ∈ l, r.ID ≠ id) (he : e.ID = id) :
    (l ++ [e]).find? (hasID id) = some e := by
  have hnone : l.find? (hasID id) = none := by
    rw [List.find?_eq_none]
    intro r hr
    simp [hasID, h r hr]
  simp [List.find?_append, hnone, hasID, he]

/-- The error of `Scan` is not the not-found error. -/
theorem errScan_ne_errNotExist (r : ServiceEntry) : errScan r ≠ errNotExist := by
  intro h
  have hd := congrArg String.data h
  unfold errScan errNotExist at hd
  split at hd
  · simp only [String.data_append] at hd
    have := congrArg List.head? hd
    simp at this
  · simp only [String.data_append] at hd
    have := congrArg List.head? hd
    simp at this

/-- Counterexample for C14: AddService of an entry with version 2^64 - 1 succeeds, the
stored INTEGER is -1, and GetService of its id fails in `Scan` instead of returning the
entry. -/
theorem AddService_unreadable_version :
    (AddService ⟨"service0", 18446744073709551615, "/b0", "s0", "u", "rw", 1, 0, 5, 30⟩
      empty).2 = none ∧
    GetService "service0"
      (AddService ⟨"service0", 18446744073709551615, "/b0", "s0", "u", "rw", 1, 0, 5, 30⟩
        empty).1
      = .error ("sql: Scan error on column index 1, name \"version\": converting "
          ++ "driver.Value type int64 (\"-1\") to a uint: invalid syntax") :=
  ⟨rfl, by rfl⟩

/-- C14, amended. GetService fails with "Service does not exist" exactly when the registry
holds no record with the id.  What it returns is a stored record with that id, field for
field, whose version and TTL are below 2^63.  With unique ids it returns the record with
the id when the version and the TTL of the record are below 2^63 and fails with the error of
`Scan` otherwise, so it succeeds exactly when the registry holds such a record.  After a
successful AddService of an entry, GetService of its id returns the entry when its version
and TTL are below 2^63, and the error of `Scan` otherwise. -/
theorem GetService_returns_stored (id : String) (db : Database) :
    ((∀ r ∈ db.services, r.ID ≠ id) ↔ GetService id db = .error "Service does not exist") ∧
    (∀ e, GetService id db = .ok e →
      e ∈ db.services ∧ e.ID = id ∧ e.Version < 2 ^ 63 ∧ e.TTL < 2 ^ 63) ∧
    ((db.services.map (fun r => r.ID)).Nodup →
      (∀ r ∈ db.services, r.ID = id →
        (r.Version < 2 ^ 63 ∧ r.TTL < 2 ^ 63 → GetService id db = .ok r) ∧
        (¬ (r.Version < 2 ^ 63 ∧ r.TTL < 2 ^ 63) → GetService id db = .error (errScan r))) ∧
      ((∃ r ∈ db.services, r.ID = id ∧ r.Version < 2 ^ 63 ∧ r.TTL < 2 ^ 63) ↔
        ∃ e, GetService id db = .ok e)) ∧
    (∀ e : ServiceEntry, e.ID = id → (AddService e db).2 = none →
      (e.Version < 2 ^ 63 ∧ e.TTL < 2 ^ 63 → GetService id (AddService e db).1 = .ok e) ∧
      (¬ (e.Version < 2 ^ 63 ∧ e.TTL < 2 ^ 63) →
        GetService id (AddService e db).1 = .error (errScan e))) := by
  have hfound : ∀ (d : Database) (r : ServiceEntry), d.services.find? (hasID id) = some r →
      (r.Version < 2 ^ 63 ∧ r.TTL < 2 ^ 63 → GetService id d = .ok r) ∧
      (¬ (r.Version < 2 ^ 63 ∧ r.TTL < 2 ^ 63) → GetService id d = .error (errScan r)) := by
    intro d r hfind
    have hget := GetService_of_find id d r hfind
    constructor
    · intro hb
      rw [hget, (readable_iff r).mpr hb]
      rfl
    · intro hb
      have hr : readable r = false := by
        rw [Bool.eq_false_iff, Ne, readable_iff]
        exact hb
      rw [hget, hr]
      rfl
  have hok : ∀ e, GetService id db = .ok e →
      e ∈ db.services ∧ e.ID = id ∧ e.Version < 2 ^ 63 ∧ e.TTL < 2 ^ 63 := by
    intro e he
    obtain ⟨hid, hmem⟩ := launcher.GetService_ok_ID id db e he
    refine ⟨hmem, hid, ?_⟩
    by_contra hb
    have hfind : db.services.find? (hasID id) = some e := by
      unfold GetService at he
      split at he
      · rename_i entry hf
        split at he
        · cases he
          exact hf
        · cases he
      · cases he
    rw [((hfound db e hfind).2 hb)] at he
    cases he
  refine ⟨⟨?_, ?_⟩, hok, ?_, ?_⟩
  · intro habs
    simpa [errNotExist] using GetService_of_absent id db habs
  · intro herr r hr hid
    rcases launcher.GetService_error_cases id db _ herr with ⟨_, habs⟩ | ⟨r', _, _, _, he⟩
    · exact habs r hr hid
    · exact errScan_ne_errNotExist r' he.symm
  · intro hnd
    have hone : ∀ r ∈ db.services, r.ID = id →
        (r.Version < 2 ^ 63 ∧ r.TTL < 2 ^ 63 → GetService id db = .ok r) ∧
        (¬ (r.Version < 2 ^ 63 ∧ r.TTL < 2 ^ 63) → GetService id db = .error (errScan r)) :=
      fun r hr hid => hfound db r (find?_hasID_of_nodup id db.services hnd r hr hid)
    refine ⟨hone, ⟨?_, ?_⟩⟩
    · rintro ⟨r, hr, hid, hb⟩
      exact ⟨r, (hone r hr hid).1 hb⟩
    · rintro ⟨e, he⟩
      exact ⟨e, hok e he⟩
  · intro e he hadd
    have hnew : ∀ r ∈ db.services, r.ID ≠ e.ID := by
      intro r hr hre
      rw [AddService_of_present e db ⟨r, hr, hre⟩] at hadd
      cases hadd
    rw [AddService_of_absent e db hnew]
    exact hfound _ e (find?_hasID_append_of_absent id db.services e (he ▸ hnew) he)

/-- Witness for C14: the Permissions string stored by AddService is read back. -/
theorem GetService_returns_stored_witness :
    GetService "service0"
      (AddService ⟨"service0", 0, "/b0", "s0", "u", "rw", 1, 0, 5, 30⟩
        ⟨[⟨"service1", 2, "/b1", "s1", "u", "", 1, 0, 3, 30⟩], []⟩).1
      = .ok ⟨"service0", 0, "/b0", "s0", "u", "rw", 1, 0, 5, 30⟩ :=
  ((GetService_returns_stored "service0"
    ⟨[⟨"service1", 2, "/b1", "s1", "u", "", 1, 0, 3, 30⟩], []⟩).2.2.2
    ⟨"service0", 0, "/b0", "s0", "u", "rw", 1, 0, 5, 30⟩ rfl rfl).1 (by decide)

/-- Counterexample for C15: the record of "service0", bound to "user0", has version 2^63.
GetUsersServices for "user0" fails in `Scan` instead of returning the record. -/
theorem GetUsersServices_unreadable_version :
    IsUsersService ["user0"] "service0"
      ⟨[⟨"service0", 9223372036854775808, "/b0", "s0", "u", "", 1, 0, 5, 30⟩],
       [⟨["user0"], "service0"⟩]⟩ = .ok true ∧
    GetUsersServices ["user0"]
      ⟨[⟨"service0", 9223372036854775808, "/b0", "s0", "u", "", 1, 0, 5, 30⟩],
       [⟨["user0"], "service0"⟩]⟩
      = .error ("sql: Scan error on column index 1, name \"version\": converting "
          ++ "driver.Value type int64 (\"-9223372036854775808\") to a uint: invalid syntax") :=
  ⟨rfl, by rfl⟩

/-- C15, amended. When the service records bound to the users list have version and TTL
below 2^63, GetUsersServices succeeds and returns exactly these records, in some order: a
record is returned as often as it is stored when its id is bound and not at all otherwise,
so a binding without service record adds nothing, a users list without binding gets the
empty list, and with unique ids no id comes twice.  When a bound record has a version or a
TTL of 2^63 or more, GetUsersServices fails. -/
theorem GetUsersServices_exact (users : List String) (db : Database) :
    ((∀ s ∈ db.services, IsUsersService users s.ID db = .ok true →
        s.Version < 2 ^ 63 ∧ s.TTL < 2 ^ 63) →
      ∃ entries, GetUsersServices users db = .ok entries ∧
        entries.Perm (db.services.filter fun s => db.users.any (isBinding users s.ID)) ∧
        (∀ s, s ∈ entries ↔ s ∈ db.services ∧ IsUsersService users s.ID db = .ok true) ∧
        (∀ s, IsUsersService users s.ID db = .ok true →
          entries.count s = db.services.count s) ∧
        (∀ s, IsUsersService users s.ID db = .ok false → entries.count s = 0) ∧
        ((∀ row ∈ db.users, row.users ≠ users) → entries = []) ∧
        ((db.services.map (fun r => r.ID)).Nodup → (entries.map (fun r => r.ID)).Nodup)) ∧
    ((∃ s ∈ db.services, IsUsersService users s.ID db = .ok true ∧
        ¬ (s.Version < 2 ^ 63 ∧ s.TTL < 2 ^ 63)) →
      ∃ msg, GetUsersServices users db = .error msg) := by
  have hfilter : (db.services.filter fun s =>
        ((db.users.filter fun r => r.users == users).map fun r => r.serviceid).contains s.ID)
      = db.services.filter fun s => db.users.any (isBinding users s.ID) := by
    apply List.filter_congr
    intro s _
    rw [Bool.eq_iff_iff, ← mem_boundIDs]
    simp
  have hperm := selectIn_perm
    ((db.users.filter fun r => r.users == users).map fun r => r.serviceid) db.services
  rw [hfilter] at hperm
  constructor
  · intro hread
    have hall : ∀ r ∈ selectIn
        ((db.users.filter fun r => r.users == users).map fun r => r.serviceid) db.services,
        readable r = true := by
      intro r hr
      have hr' := (List.mem_filter.mp (hperm.mem_iff.mp hr))
      exact (readable_iff r).mpr (hread r hr'.1 (by simpa [IsUsersService] using hr'.2))
    refine ⟨_, (GetUsersServices_ok_iff users db _).mpr ⟨rfl, hall⟩, hperm, ?_, ?_, ?_, ?_, ?_⟩
    · intro s
      rw [hperm.mem_iff, List.mem_filter]
      simp [IsUsersService]
    · intro s hs
      simp only [IsUsersService, Except.ok.injEq] at hs
      rw [hperm.count_eq, List.count_filter]
      exact hs
    · intro s hs
      simp only [IsUsersService, Except.ok.injEq] at hs
      rw [List.count_eq_zero, hperm.mem_iff, List.mem_filter, hs]
      simp
    · intro hnone
      rw [← List.perm_nil]
      refine hperm.trans (List.Perm.of_eq ?_)
      rw [List.filter_eq_nil_iff]
      intro s _
      simp only [Bool.not_eq_true, List.any_eq_false, isBinding_iff, not_and]
      intro row hrow hu
      exact absurd hu (hnone row hrow)
    · intro hnd
      exact ((hperm.map _).nodup_iff).mpr
        (hnd.sublist (List.Sublist.map _ (List.filter_sublist _)))
  · rintro ⟨s, hs, hb, hbad⟩
    cases hg : GetUsersServices users db with
    | error msg => exact ⟨msg, rfl⟩
    | ok entries =>
      exfalso
      obtain ⟨_, hall⟩ := (GetUsersServices_ok_iff users db entries).mp hg
      have hmem : s ∈ selectIn
          ((db.users.filter fun r => r.users == users).map fun r => r.serviceid)
          db.services := by
        rw [hperm.mem_iff, List.mem_filter]
        exact ⟨hs, by simpa [IsUsersService] using hb⟩
      exact hbad ((readable_iff s).mp (hall s hmem))

/-- Witness for C15, amended: of the records of "service1", "service2" and "service0",
stored in this order, those bound to "user0" are returned, by id; the binding of "service9",
which has no record, adds nothing; "user2" has no binding and gets the empty list. -/
theorem GetUsersServices_exact_witness :
    GetUsersServices ["user0"]
      ⟨[⟨"service1", 0, "/b1", "s1", "u", "", 1, 0, 6, 30⟩,
        ⟨"service2", 0, "/b2", "s2", "u", "", 1, 0, 7, 30⟩,
        ⟨"service0", 0, "/b0", "s0", "u", "", 1, 0, 5, 30⟩],
       [⟨["user0"], "service1"⟩, ⟨["user1"], "service2"⟩, ⟨["user0"], "service9"⟩,
        ⟨["user0"], "service0"⟩]⟩
      = .ok [⟨"service0", 0, "/b0", "s0", "u", "", 1, 0, 5, 30⟩,
             ⟨"service1", 0, "/b1", "s1", "u", "", 1, 0, 6, 30⟩] ∧
    ∃ entries, GetUsersServices ["user2"]
      ⟨[⟨"service0", 0, "/b0", "s0", "u", "", 1, 0, 5, 30⟩],
       [⟨["user0"], "service0"⟩]⟩ = .ok entries ∧ entries = [] :=
  ⟨by rfl,
   match (GetUsersServices_exact ["user2"]
      ⟨[⟨"service0", 0, "/b0", "s0", "u", "", 1, 0, 5, 30⟩], [⟨["user0"], "service0"⟩]⟩).1
      (fun s hs _ => by
        rw [List.mem_singleton.mp hs]
        exact ⟨by decide, by decide⟩) with
   | ⟨entries, h, _, _, _, _, hnil, _⟩ => ⟨entries, h, hnil (by decide)⟩⟩

/-! ### Single-field updates and deletion of a users list -/

theorem rowsAffected_ne_zero (id : String) (db : Database)
    (h : ∃ r ∈ db.services, r.ID = id) : rowsAffected id db ≠ 0 := by
  rw [Ne, rowsAffected_eq_zero_iff]
  obtain ⟨r, hr, hre⟩ := h
  exact fun hall => hall r hr hre

/-- C16. For an id that has a record, SetServiceState, SetServiceStatus and
SetServiceStartTime succeed; each keeps the number and the order of the records, writes its
one field (state, status, start time) in the records with that id, leaves the other fields
of these records and the records with other ids as they were, and does not touch the user
bindings. -/
theorem setters_change_one_field (id : String) (db : Database)
    (h : ∃ r ∈ db.services, r.ID = id) :
    (∀ state : Int,
      (SetServiceState id state db).2 = none ∧
      (SetServiceState id state db).1.users = db.users ∧
      (SetServiceState id state db).1.services.length = db.services.length ∧
      ∀ (i : Nat) (r : ServiceEntry), db.services[i]? = some r →
        (SetServiceState id state db).1.services[i]?
          = some (if r.ID = id then { r with State := state } else r)) ∧
    (∀ status : Int,
      (SetServiceStatus id status db).2 = none ∧
      (SetServiceStatus id status db).1.users = db.users ∧
      (SetServiceStatus id status db).1.services.length = db.services.length ∧
      ∀ (i : Nat) (r : ServiceEntry), db.services[i]? = some r →
        (SetServiceStatus id status db).1.services[i]?
          = some (if r.ID = id then { r with Status := status } else r)) ∧
    (∀ time : Int,
      (SetServiceStartTime id time db).2 = none ∧
      (SetServiceStartTime id time db).1.users = db.users ∧
      (SetServiceStartTime id time db).1.services.length = db.services.length ∧
      ∀ (i : Nat) (r : ServiceEntry), db.services[i]? = some r →
        (SetServiceStartTime id time db).1.services[i]?
          = some (if r.ID = id then { r with StartAt := time } else r)) := by
  have hcount := rowsAffected_ne_zero id db h
  refine ⟨fun state => ⟨?_, SetServiceState_users id state db, ?_, ?_⟩,
    fun status => ⟨?_, SetServiceStatus_users id status db, ?_, ?_⟩,
    fun time => ⟨?_, SetServiceStartTime_users id time db, ?_, ?_⟩⟩
  · simp [SetServiceState, hcount]
  · simp [SetServiceState_services]
  · intro i r hir
    simp [SetServiceState_services, List.getElem?_map, hir, stateRow, hasID]
  · simp [SetServiceStatus, hcount]
  · simp [SetServiceStatus_services]
  · intro i r hir
    simp [SetServiceStatus_services, List.getElem?_map, hir, statusRow, hasID]
  · simp [SetServiceStartTime, hcount]
  · simp [SetServiceStartTime_services]
  · intro i r hir
    simp [SetServiceStartTime_services, List.getElem?_map, hir, startRow, hasID]

/-- Witness for C16: the start time of "service0" is moved; "service1" stays. -/
theorem setters_change_one_field_witness :
    (SetServiceStartTime "service0" 2
      ⟨[⟨"service0", 0, "/b0", "s0", "u", "", 1, 0, 5, 30⟩,
        ⟨"service1", 0, "/b1", "s1", "u", "", 1, 0, 6, 30⟩], []⟩).2 = none ∧
    (SetServiceStartTime "service0" 2
      ⟨[⟨"service0", 0, "/b0", "s0", "u", "", 1, 0, 5, 30⟩,
        ⟨"service1", 0, "/b1", "s1", "u", "", 1, 0, 6, 30⟩], []⟩).1.services
      = [⟨"service0", 0, "/b0", "s0", "u", "", 1, 0, 2, 30⟩,
         ⟨"service1", 0, "/b1", "s1", "u", "", 1, 0, 6, 30⟩] :=
  ⟨((setters_change_one_field "service0"
      ⟨[⟨"service0", 0, "/b0", "s0", "u", "", 1, 0, 5, 30⟩,
        ⟨"service1", 0, "/b1", "s1", "u", "", 1, 0, 6, 30⟩], []⟩
      ⟨⟨"service0", 0, "/b0", "s0", "u", "", 1, 0, 5, 30⟩, by simp, rfl⟩).2.2 2).1,
   by decide⟩

/-- C17. DeleteUsers succeeds; afterwards GetUsersList does not name the users list and
IsUsersService is false for it with every id, while the service records, the rows of the
other users lists and what IsUsersService, GetUsersServices and GetUsersList say about them
are as before.  GetUsersList names every users list that has a binding, each once. -/
theorem DeleteUsers_removes_only_users (users : List String) (db : Database) :
    (DeleteUsers users db).2 = none ∧
    (∃ list, GetUsersList (DeleteUsers users db).1 = .ok list ∧ users ∉ list ∧
      ∀ other, other ≠ users →
        (other ∈ list ↔ ∃ before, GetUsersList db = .ok before ∧ other ∈ before)) ∧
    (∀ id, IsUsersService users id (DeleteUsers users db).1 = .ok false) ∧
    (DeleteUsers users db).1.services = db.services ∧
    (∀ row, row.users ≠ users → (row ∈ (DeleteUsers users db).1.users ↔ row ∈ db.users)) ∧
    (∀ other id, other ≠ users →
      IsUsersService other id (DeleteUsers users db).1 = IsUsersService other id db) ∧
    (∀ other, other ≠ users →
      GetUsersServices other (DeleteUsers users db).1 = GetUsersServices other db) ∧
    (∃ list, GetUsersList db = .ok list ∧ list.Nodup ∧
      ∀ u, u ∈ list ↔ ∃ id, IsUsersService u id db = .ok true) := by
  refine ⟨rfl, ⟨_, rfl, ?_, ?_⟩, ?_, rfl, ?_, ?_, ?_, ⟨_, rfl, List.nodup_dedup _, ?_⟩⟩
  · simp [DeleteUsers]
  · intro other hne
    simp only [DeleteUsers, GetUsersList, Except.ok.injEq, exists_eq_left', List.mem_dedup,
      List.mem_map, List.mem_filter]
    constructor
    · rintro ⟨row, ⟨hrow, _⟩, hu⟩
      exact ⟨row, hrow, hu⟩
    · rintro ⟨row, hrow, hu⟩
      exact ⟨row, ⟨hrow, by simp [hu, hne]⟩, hu⟩
  · intro id
    simp only [IsUsersService, DeleteUsers, Except.ok.injEq, List.any_eq_false, List.mem_filter,
      isBinding_iff]
    rintro row ⟨_, hu⟩ ⟨hu', _⟩
    simp [hu'] at hu
  · intro row hne
    simp [DeleteUsers, hne]
  · intro other id hne
    simp only [IsUsersService, DeleteUsers, Except.ok.injEq]
    rw [Bool.eq_iff_iff]
    simp only [List.any_eq_true, List.mem_filter, isBinding_iff]
    constructor
    · rintro ⟨row, ⟨hrow, _⟩, hb⟩
      exact ⟨row, hrow, hb⟩
    · rintro ⟨row, hrow, hb⟩
      exact ⟨row, ⟨hrow, by simp [hb.1, hne]⟩, hb⟩
  · intro other hne
    have hf : ((db.users.filter fun r => !(r.users == users)).filter fun r => r.users == other)
        = db.users.filter fun r => r.users == other := by
      rw [List.filter_filter]
      apply List.filter_congr
      intro row _
      by_cases hu : row.users = other
      · simp [hu, hne]
      · simp [hu]
    simp only [GetUsersServices, DeleteUsers, hf]
  · intro u
    simp only [List.mem_dedup, List.mem_map, IsUsersService, Except.ok.injEq, List.any_eq_true,
      isBinding_iff]
    constructor
    · rintro ⟨row, hrow, hu⟩
      exact ⟨row.serviceid, row, hrow, hu, rfl⟩
    · rintro ⟨id, row, hrow, hu, _⟩
      exact ⟨row, hrow, hu⟩

/-- Witness for C17: the two rows of "user0" are deleted, the row of "user1" stays. -/
theorem DeleteUsers_removes_only_users_witness :
    (DeleteUsers ["user0"]
      ⟨[], [⟨["user0"], "service0"⟩, ⟨["user1"], "service1"⟩, ⟨["user0"], "service2"⟩]⟩).1.users
      = [⟨["user1"], "service1"⟩] ∧
    IsUsersService ["user0"] "service2"
      (DeleteUsers ["user0"]
        ⟨[], [⟨["user0"], "service0"⟩, ⟨["user1"], "service1"⟩,
              ⟨["user0"], "service2"⟩]⟩).1 = .ok false :=
  ⟨by decide,
   (DeleteUsers_removes_only_users ["user0"]
      ⟨[], [⟨["user0"], "service0"⟩, ⟨["user1"], "service1"⟩,
            ⟨["user0"], "service2"⟩]⟩).2.2.1 "service2"⟩

end database

end Aos

/-! ## Properties of the VIS client -/

namespace Aos

namespace visclient

/-- C20. getValueFromResponse goes by the shape of the value of the response: for a map, the
value stored under the path when the key is present and "Path not found" when it is not;
for nil, "No value found"; for anything else, the value itself. -/
theorem getValueFromResponse_by_shape (path : String) (rsp : visResponse) :
    (∀ valueMap, rsp.Value = .object valueMap →
      (∀ value, valueMap.lookup path = some value →
        getValueFromResponse path rsp = .ok value) ∧
      (valueMap.lookup path = none →
        getValueFromResponse path rsp = .error "Path not found")) ∧
    (rsp.Value = .null → getValueFromResponse path rsp = .error "No value found") ∧
    ((∀ valueMap, rsp.Value ≠ .object valueMap) → rsp.Value ≠ .null →
      getValueFromResponse path rsp = .ok rsp.Value) := by
  refine ⟨?_, ?_, ?_⟩
  · intro valueMap hv
    constructor
    · intro value hl
      simp [getValueFromResponse, hv, hl]
    · intro hl
      simp [getValueFromResponse, hv, hl]
  · intro hv
    simp [getValueFromResponse, hv]
  · intro hmap hnull
    unfold getValueFromResponse
    split
    · rename_i valueMap hv
      exact absurd hv (hmap valueMap)
    · rename_i hv
      exact absurd hv hnull
    · rfl

/-- Witness for C20: a map that holds the path, and a bare string. -/
theorem getValueFromResponse_by_shape_witness :
    getValueFromResponse "Attribute.Vehicle.VehicleIdentification.VIN"
      ⟨"get", "0", .object [("Attribute.Vehicle.VehicleIdentification.VIN", .string "VIN1")],
        none, 0, none, 0⟩ = .ok (.string "VIN1") ∧
    getValueFromResponse "Attribute.Vehicle.VehicleIdentification.VIN"
      ⟨"get", "0", .string "VIN1", none, 0, none, 0⟩ = .ok (.string "VIN1") :=
  ⟨((getValueFromResponse_by_shape "Attribute.Vehicle.VehicleIdentification.VIN"
      ⟨"get", "0", .object [("Attribute.Vehicle.VehicleIdentification.VIN", .string "VIN1")],
        none, 0, none, 0⟩).1 _ rfl).1 _ rfl,
   (getValueFromResponse_by_shape "Attribute.Vehicle.VehicleIdentification.VIN"
      ⟨"get", "0", .string "VIN1", none, 0, none, 0⟩).2.2
      (fun _ h => by cases h) (fun h => by cases h)⟩

theorem not_mem_delete (requestID : Nat) (requests : List Nat) :
    requestID ∉ delete requestID requests := by
  simp [delete]

theorem mem_store (requestID : Nat) (requests : List Nat) :
    requestID ∈ store requestID requests := by
  simp [store]

/-- On the paths that end in `vis.requests.Delete` (write failure, timeout, a response
without error) the request id taken by `processRequest` is not pending afterwards. -/
theorem processRequest_deletes (net : Transport) (req : visRequest) (vis : VisClient)
    (hmarshal : ∀ err, net ≠ .marshalFailed err)
    (herror : ∀ r, net = .response r → r.Error = none) :
    vis.requestID ∉ (processRequest net req vis).1.requests := by
  unfold processRequest
  cases net with
  | marshalFailed err => exact absurd rfl (hmarshal err)
  | writeFailed err => exact not_mem_delete _ _
  | timeout => exact not_mem_delete _ _
  | response r =>
    simp only [herror r rfl]
    exact not_mem_delete _ _

/-- C19, evaluated where it fails: VIS answers request 0 with an error.  processRequest
returns that error, and request id 0 is still in the pending-requests map. -/
theorem processRequest_error_response_keeps_request :
    (processRequest
      (.response ⟨"get", "0", .null, some ⟨404, "invalid_path", "not found"⟩, 0, none, 0⟩)
      ⟨"get", "Attribute.Vehicle.UserIdentification.Users", ""⟩
      ⟨[], "", none, 0⟩).1.requests = [0] ∧
    (processRequest
      (.response ⟨"get", "0", .null, some ⟨404, "invalid_path", "not found"⟩, 0, none, 0⟩)
      ⟨"get", "Attribute.Vehicle.UserIdentification.Users", ""⟩
      ⟨[], "", none, 0⟩).2 = .error "Error: 404, message: not found, reason: invalid_path" :=
  ⟨rfl, by rfl⟩

/-- A call of GetUsers that fails before the loop over the items (the request fails, the
value is missing or is not a list) leaves the cached users unset. -/
theorem GetUsers_error_before_loop (net : Transport) (vis : VisClient)
    (hunset : vis.users = none)
    (hloop : ∀ vis1 rsp itfs,
      processRequest net ⟨"get", "Attribute.Vehicle.UserIdentification.Users", ""⟩ vis
        = (vis1, .ok rsp) →
      getValueFromResponse "Attribute.Vehicle.UserIdentification.Users" rsp
        ≠ .ok (.array itfs)) :
    (GetUsers net vis).1.users = none ∧ ∃ err, (GetUsers net vis).2 = .error err := by
  have hreq : ∀ r, (processRequest net r vis).1.users = none := by
    intro r
    unfold processRequest
    cases net with
    | marshalFailed err => exact hunset
    | writeFailed err => exact hunset
    | timeout => exact hunset
    | response r =>
      simp only
      split <;> exact hunset
  unfold GetUsers
  simp only [hunset]
  split
  · rename_i vis1 err hp
    have := hreq ⟨"get", "Attribute.Vehicle.UserIdentification.Users", ""⟩
    rw [hp] at this
    exact ⟨this, err, rfl⟩
  · rename_i vis1 rsp hp
    have hu := hreq ⟨"get", "Attribute.Vehicle.UserIdentification.Users", ""⟩
    rw [hp] at hu
    split
    · rename_i err _
      exact ⟨hu, err, rfl⟩
    · rename_i itfs hv
      exact absurd hv (hloop vis1 rsp itfs hp)
    · exact ⟨hu, _, rfl⟩

/-- C18, evaluated where it fails: VIS answers with the list "user0", 5.  GetUsers returns
"Wrong users type" but has already cached the list "user0", "" ; the next call, whatever
the connection would do, sends no request and returns the cached partial list without
error. -/
theorem GetUsers_error_leaves_partial_cache :
    (GetUsers (.response ⟨"get", "0", .array [.string "user0", .number 5], none, 0, none, 0⟩)
      ⟨[], "", none, 0⟩).2 = .error "Wrong users type" ∧
    (GetUsers (.response ⟨"get", "0", .array [.string "user0", .number 5], none, 0, none, 0⟩)
      ⟨[], "", none, 0⟩).1.users = some ["user0", ""] ∧
    ∀ net : Transport,
      (GetUsers net
        (GetUsers (.response ⟨"get", "0", .array [.string "user0", .number 5], none, 0, none, 0⟩)
          ⟨[], "", none, 0⟩).1).2 = .ok ["user0", ""] ∧
      (GetUsers net
        (GetUsers (.response ⟨"get", "0", .array [.string "user0", .number 5], none, 0, none, 0⟩)
          ⟨[], "", none, 0⟩).1).1.requestID
        = (GetUsers (.response ⟨"get", "0", .array [.string "user0", .number 5], none, 0, none, 0⟩)
            ⟨[], "", none, 0⟩).1.requestID :=
  ⟨rfl, rfl, fun _ => ⟨rfl, rfl⟩⟩

end visclient

end Aos

/-! ## Properties of the migration -/

namespace Aos

namespace migration

/-- C21. When the instance reports a version with the dirty flag set, DoMigrate returns
"can't update, db is dirty" and makes no call on the instance at all, so Migrate is not
invoked, whatever the target version, the reported version included; and also when the
flag comes with ErrNilVersion, Migrate is not invoked. -/
theorem DoMigrate_dirty (m : Instance) (version migrateVersion : Nat)
    (hdirty : m.Version = (version, true, none)) :
    DoMigrate (.ok m) migrateVersion = ([], some (.other "can't update, db is dirty")) ∧
    DoMigrate (.ok m) version = ([], some (.other "can't update, db is dirty")) ∧
    (∀ (m' : Instance) (v target : Nat), m'.Version = (v, true, some .ErrNilVersion) →
      (DoMigrate (.ok m') target).2 ≠ none ∧
      ∀ x, Invoked.Migrate x ∉ (DoMigrate (.ok m') target).1) := by
  refine ⟨?_, ?_, ?_⟩
  · simp [DoMigrate, hdirty, migrateFrom]
  · simp [DoMigrate, hdirty, migrateFrom]
  · intro m' v target hv
    simp only [DoMigrate, hv]
    cases hf : m'.Force 0 <;> simp [migrateFrom]

/-- Witness for C21: version 3, dirty, target 3; Migrate would succeed if it were called. -/
theorem DoMigrate_dirty_witness :
    DoMigrate (.ok ⟨(3, true, none), fun _ => none, fun _ => none⟩) 3
      = ([], some (.other "can't update, db is dirty")) :=
  (DoMigrate_dirty ⟨(3, true, none), fun _ => none, fun _ => none⟩ 3 3 rfl).1

/-- C22. With the database not dirty: when the reported version is the target, DoMigrate
returns nil and makes no call on the instance; when no version is set, the version is
forced to 0 and, the force succeeding and the target being 0, DoMigrate returns nil with
that one call; and when Migrate is invoked (another target) and reports ErrNoChange,
DoMigrate returns nil as well. -/
theorem DoMigrate_no_change (m : Instance) (migrateVersion : Nat) :
    (m.Version = (migrateVersion, false, none) →
      DoMigrate (.ok m) migrateVersion = ([], none)) ∧
    (∀ v, m.Version = (v, false, some .ErrNilVersion) → m.Force 0 = none →
      DoMigrate (.ok m) 0 = ([.Force 0], none)) ∧
    (∀ version, m.Version = (version, false, none) → version ≠ migrateVersion →
      m.Migrate migrateVersion = some .ErrNoChange →
      DoMigrate (.ok m) migrateVersion = ([.Migrate migrateVersion], none)) ∧
    (∀ v, m.Version = (v, false, some .ErrNilVersion) → m.Force 0 = none →
      migrateVersion ≠ 0 → m.Migrate migrateVersion = some .ErrNoChange →
      DoMigrate (.ok m) migrateVersion = ([.Force 0, .Migrate migrateVersion], none)) := by
  refine ⟨?_, ?_, ?_, ?_⟩
  · intro hv
    simp [DoMigrate, hv, migrateFrom]
  · intro v hv hf
    simp [DoMigrate, hv, hf, migrateFrom]
  · intro version hv hne hm
    simp [DoMigrate, hv, migrateFrom, hne, hm]
  · intro v hv hf hne hm
    have hne' : ¬ 0 = migrateVersion := fun e => hne e.symm
    simp [DoMigrate, hv, hf, migrateFrom, hne', hm]

/-- Witness for C22: version 2 reported and target 2; no version set and target 0; version 2
reported, target 5 and Migrate reporting no change. -/
theorem DoMigrate_no_change_witness :
    DoMigrate (.ok ⟨(2, false, none), fun _ => none, fun _ => some (.other "unused")⟩) 2
      = ([], none) ∧
    DoMigrate (.ok ⟨(0, false, some .ErrNilVersion), fun _ => none,
      fun _ => some (.other "unused")⟩) 0 = ([.Force 0], none) ∧
    DoMigrate (.ok ⟨(2, false, none), fun _ => none, fun _ => some .ErrNoChange⟩) 5
      = ([.Migrate 5], none) :=
  ⟨(DoMigrate_no_change ⟨(2, false, none), fun _ => none, fun _ => some (.other "unused")⟩
      2).1 rfl,
   (DoMigrate_no_change ⟨(0, false, some .ErrNilVersion), fun _ => none,
      fun _ => some (.other "unused")⟩ 0).2.1 0 rfl rfl,
   (DoMigrate_no_change ⟨(2, false, none), fun _ => none, fun _ => some .ErrNoChange⟩
      5).2.2.1 2 rfl (by decide) rfl⟩

end migration

end Aos
